import Mathlib

/-!
Shallow embedding of the chat-app backend's message-permission engine,
DM-request state machine, translation pipeline and message localization
reader, together with theorems checking the specification's claims.

Sources embedded (TypeScript):
  - src/utils/user-pairs.ts          (normalizeUserPair)
  - src/utils/message-permissions.ts (canSendMessage, validateMessagePermission)
  - src/modules/dm/dm.service.ts     (createOrUpdateDmRequest, autoAcceptDmRequestOnReply)
  - src/modules/chats/language-preferences.service.ts
  - src/modules/messages/messages.service.ts (sendMessage, getMessages)
  - src/queue/translation.queue.ts   (addTranslationJob)
  - src/workers/translation.worker.ts (job processor + BullMQ retry policy)

The database is modelled as lists of rows; Prisma `findUnique` becomes
`List.find?` over the unique key, `update` becomes a map over rows,
`create` appends a row.  Timestamps (`new Date()`) are an explicit `now : Nat`
parameter; freshly generated row ids are explicit parameters.
-/

namespace ChatApp

/-- Status enum of the `DmRequest` Prisma model. -/
inductive DmRequestStatus
  | PENDING
  | ACCEPTED
  | DECLINED
  | BLOCKED
  deriving DecidableEq, Repr

/-- Status enum of the `Friendship` Prisma model. -/
inductive FriendshipStatus
  | PENDING
  | ACCEPTED
  | DECLINED
  | BLOCKED
  deriving DecidableEq, Repr

/-- `MessageType` Prisma enum. -/
inductive MessageType
  | TEXT
  | SYSTEM
  deriving DecidableEq, Repr

/-- `ChatType`: a chat is either a direct-message chat or a group chat. -/
inductive ChatType
  | DM
  | GROUP
  deriving DecidableEq, Repr

/-- A `UserBlock` row: directed edge (blockerId, blockedId), unique per pair. -/
structure UserBlock where
  blockerId : String
  blockedId : String
  deriving DecidableEq, Repr

/-- A `Friendship` row, keyed by the normalized pair (userAId, userBId). -/
structure Friendship where
  userAId : String
  userBId : String
  requestedById : String
  status : FriendshipStatus
  deriving DecidableEq, Repr

/-- A `DmRequest` row, keyed by the normalized pair (userAId, userBId). -/
structure DmRequest where
  id : String
  userAId : String
  userBId : String
  initiatedById : String
  status : DmRequestStatus
  lastMessageAt : Option Nat
  createdAt : Nat
  deriving DecidableEq, Repr

/-- A `Chat` row; `dmChat` is the associated `DmChat` row's
(userAId, userBId) when the chat is a DM chat. -/
structure Chat where
  id : String
  type : ChatType
  dmChat : Option (String × String)
  updatedAt : Nat
  deriving DecidableEq, Repr

/-- A `Message` row. -/
structure Message where
  id : String
  chatId : String
  senderId : String
  type : MessageType
  content : String
  createdAt : Nat
  editedAt : Option Nat
  deletedAt : Option Nat
  deriving DecidableEq, Repr

/-- A `ChatLanguagePreference` row, unique per (chatId, userId). -/
structure ChatLanguagePreference where
  chatId : String
  userId : String
  myLanguage : String
  viewLanguage : String
  deriving DecidableEq, Repr

/-- A `MessageTranslation` row, unique per (messageId, lang). -/
structure MessageTranslation where
  id : String
  messageId : String
  lang : String
  content : String
  provider : String
  deriving DecidableEq, Repr

/-- The persistent store: each Prisma table as a list of rows. -/
structure DB where
  userBlocks : List UserBlock
  friendships : List Friendship
  dmRequests : List DmRequest
  chats : List Chat
  chatMembers : List (String × String)
  messages : List Message
  langPrefs : List ChatLanguagePreference
  translations : List MessageTranslation
  deriving DecidableEq, Repr

/-- Typed application errors (src/utils/errors.ts); `internal` stands for a
plain thrown `Error`. -/
inductive AppError
  | validation (msg : String)
  | forbidden (msg : String)
  | notFound (msg : String)
  | conflict (msg : String)
  | internal (msg : String)
  deriving DecidableEq, Repr

/-- `prisma.userBlock.findUnique` on the (blockerId, blockedId) unique key. -/
def DB.findUserBlock (db : DB) (blockerId blockedId : String) : Option UserBlock :=
  db.userBlocks.find? (fun b => b.blockerId = blockerId && b.blockedId = blockedId)

/-- `prisma.friendship.findUnique` on the (userAId, userBId) unique key. -/
def DB.findFriendship (db : DB) (userAId userBId : String) : Option Friendship :=
  db.friendships.find? (fun f => f.userAId = userAId && f.userBId = userBId)

/-- `prisma.dmRequest.findUnique` on the (userAId, userBId) unique key. -/
def DB.findDmRequest (db : DB) (userAId userBId : String) : Option DmRequest :=
  db.dmRequests.find? (fun r => r.userAId = userAId && r.userBId = userBId)

/-- `prisma.chat.findUnique` on id. -/
def DB.findChat (db : DB) (chatId : String) : Option Chat :=
  db.chats.find? (fun c => c.id = chatId)

/-- `prisma.message.findUnique` on id. -/
def DB.findMessage (db : DB) (messageId : String) : Option Message :=
  db.messages.find? (fun m => m.id = messageId)

/-- `prisma.chatMember.findUnique` membership test on (chatId, userId). -/
def DB.isChatMember (db : DB) (chatId userId : String) : Bool :=
  db.chatMembers.any (fun m => m.1 = chatId && m.2 = userId)

/-- `prisma.messageTranslation.findUnique` on the (messageId, lang) unique key. -/
def DB.findTranslation (db : DB) (messageId lang : String) : Option MessageTranslation :=
  db.translations.find? (fun t => t.messageId = messageId && t.lang = lang)

/-- `prisma.dmRequest.update({ where: { id } })`: rewrite the row(s) with the
given id, leaving all other rows untouched. -/
def DB.updateDmRequest (db : DB) (id : String) (f : DmRequest → DmRequest) : DB :=
  { db with dmRequests := db.dmRequests.map (fun r => if r.id = id then f r else r) }

/-- Lexicographic comparison of character lists by code point, embedding the
JavaScript `<` on strings. -/
def strLtb : List Char → List Char → Bool
  | [], [] => false
  | [], _ :: _ => true
  | _ :: _, [] => false
  | a :: as, b :: bs =>
    if a.val < b.val then true
    else if b.val < a.val then false
    else strLtb as bs

/-- JS `string <` on Lean strings. -/
def strLt (a b : String) : Bool := strLtb a.data b.data

/-- JS `String.prototype.trim`: strip whitespace from both ends. -/
def strTrim (s : String) : String :=
  ⟨((s.data.dropWhile Char.isWhitespace).reverse.dropWhile Char.isWhitespace).reverse⟩

/-- JS `string.length` (code units; identical to the character count for the
contents modelled here). -/
def strLength (s : String) : Nat := s.data.length

/-- src/utils/user-pairs.ts `normalizeUserPair`: order the two ids
lexicographically (throws on a self-pair). -/
def normalizeUserPair (userId1 userId2 : String) :
    Except AppError (String × String) :=
  if userId1 = userId2 then
    .error (.internal "Cannot create relationship with same user")
  else if strLt userId1 userId2 then
    .ok (userId1, userId2)
  else
    .ok (userId2, userId1)

/-- Result record of `canSendMessage` (src/utils/message-permissions.ts);
omitted optional fields are `none`. -/
structure MessagePermissionResult where
  allowed : Bool
  reason : Option String := none
  requiresDmRequest : Option Bool := none
  deriving DecidableEq, Repr

/-- src/utils/message-permissions.ts `canSendMessage`: four rules, first
match wins. -/
def canSendMessage (db : DB) (senderId receiverId : String) :
    Except AppError MessagePermissionResult := do
  match db.findUserBlock receiverId senderId with
  | some _ => return { allowed := false, reason := some "You have been blocked by this user" }
  | none =>
  match db.findUserBlock senderId receiverId with
  | some _ => return { allowed := false, reason := some "You have blocked this user" }
  | none => do
    let (userAId, userBId) ← normalizeUserPair senderId receiverId
    match db.findFriendship userAId userBId with
    | some friendship =>
      if friendship.status = .ACCEPTED then
        return { allowed := true, requiresDmRequest := some false }
      else
        return { allowed := true, requiresDmRequest := some true }
    | none => return { allowed := true, requiresDmRequest := some true }

/-- src/utils/message-permissions.ts `validateMessagePermission`. -/
def validateMessagePermission (db : DB) (senderId receiverId : String) :
    Except AppError Unit := do
  let permission ← canSendMessage db senderId receiverId
  if permission.allowed then
    return ()
  else
    throw (.forbidden (permission.reason.getD "Message not allowed"))

/-- Modelled from the spec (§4.1): the four-rule reference decision, written
from the spec's words, to be compared with the code's `canSendMessage`:
1. receiver blocked sender → deny "blocked by receiver";
2. sender blocked receiver → deny "blocked by sender";
3. ACCEPTED Friendship for the normalized pair → allow, requiresRequest=false;
4. otherwise → allow, requiresRequest=true. -/
def specCanSend (db : DB) (senderId receiverId : String) : MessagePermissionResult :=
  if (db.findUserBlock receiverId senderId).isSome then
    { allowed := false, reason := some "You have been blocked by this user" }
  else if (db.findUserBlock senderId receiverId).isSome then
    { allowed := false, reason := some "You have blocked this user" }
  else
    let lo := if strLt senderId receiverId then senderId else receiverId
    let hi := if strLt senderId receiverId then receiverId else senderId
    if (db.findFriendship lo hi).any (fun f => f.status = .ACCEPTED) then
      { allowed := true, requiresDmRequest := some false }
    else
      { allowed := true, requiresDmRequest := some true }

/-- C1: `canSendMessage` equals the four-rule reference decision (first match
wins: blocked-by-receiver deny, blocked-by-sender deny, ACCEPTED friendship
allow without request, otherwise allow with request), and a block in either
direction denies in both directions. -/
theorem canSendMessage_matches_spec (db : DB) (s r : String) (hne : s ≠ r) :
    canSendMessage db s r = .ok (specCanSend db s r) ∧
    (((db.findUserBlock s r).isSome ∨ (db.findUserBlock r s).isSome) →
      (canSendMessage db s r).toOption.map (fun p => p.allowed) = some false ∧
      (canSendMessage db r s).toOption.map (fun p => p.allowed) = some false) := by
  have hne' : r ≠ s := fun h => hne h.symm
  constructor
  · cases h1 : db.findUserBlock r s with
    | some b => simp [canSendMessage, specCanSend, h1, pure, Except.pure]
    | none =>
      cases h2 : db.findUserBlock s r with
      | some b => simp [canSendMessage, specCanSend, h1, h2, pure, Except.pure]
      | none =>
        cases hlt : strLt s r with
        | true =>
          cases h3 : db.findFriendship s r with
          | some f =>
            by_cases hacc : f.status = .ACCEPTED
            all_goals simp [canSendMessage, specCanSend, normalizeUserPair,
              h1, h2, h3, hne, hlt, hacc, pure, Except.pure, bind, Except.bind]
          | none =>
            simp [canSendMessage, specCanSend, normalizeUserPair,
              h1, h2, h3, hne, hlt, pure, Except.pure, bind, Except.bind]
        | false =>
          cases h3 : db.findFriendship r s with
          | some f =>
            by_cases hacc : f.status = .ACCEPTED
            all_goals simp [canSendMessage, specCanSend, normalizeUserPair,
              h1, h2, h3, hne, hlt, hacc, pure, Except.pure, bind, Except.bind]
          | none =>
            simp [canSendMessage, specCanSend, normalizeUserPair,
              h1, h2, h3, hne, hlt, pure, Except.pure, bind, Except.bind]
  · intro hblk
    constructor
    · cases h1 : db.findUserBlock r s with
      | some b => simp [canSendMessage, h1, pure, Except.pure, Except.toOption]
      | none =>
        cases h2 : db.findUserBlock s r with
        | some b => simp [canSendMessage, h1, h2, pure, Except.pure, Except.toOption]
        | none =>
          rcases hblk with h | h
          · rw [h2] at h; simp at h
          · rw [h1] at h; simp at h
    · cases h1 : db.findUserBlock s r with
      | some b => simp [canSendMessage, h1, pure, Except.pure, Except.toOption]
      | none =>
        cases h2 : db.findUserBlock r s with
        | some b => simp [canSendMessage, h1, h2, pure, Except.pure, Except.toOption]
        | none =>
          rcases hblk with h | h
          · rw [h1] at h; simp at h
          · rw [h2] at h; simp at h

/-- src/modules/dm/dm.service.ts `createOrUpdateDmRequest`.  `now` is the
value of `new Date()`, `newId` the id Prisma would generate for a created
row.  The fire-and-forget notification created for a fresh request does not
touch any table modelled here and is omitted. -/
def createOrUpdateDmRequest (db : DB) (now : Nat) (newId : String)
    (senderId receiverId : String) : Except AppError (DB × DmRequest) := do
  validateMessagePermission db senderId receiverId
  let (userAId, userBId) ← normalizeUserPair senderId receiverId
  match db.findDmRequest userAId userBId with
  | some existingRequest =>
    match existingRequest.status with
    | .ACCEPTED =>
      -- If already ACCEPTED, just update lastMessageAt
      let updated := { existingRequest with lastMessageAt := some now }
      return (db.updateDmRequest existingRequest.id (fun _ => updated), updated)
    | .PENDING | .DECLINED =>
      -- If PENDING or DECLINED, update lastMessageAt and reset to PENDING
      let updated := { existingRequest with
        lastMessageAt := some now, status := DmRequestStatus.PENDING }
      return (db.updateDmRequest existingRequest.id (fun _ => updated), updated)
    | .BLOCKED =>
      throw (.forbidden "Cannot send message - user is blocked")
  | none =>
    -- Create new DM request
    let dmRequest : DmRequest :=
      { id := newId, userAId := userAId, userBId := userBId,
        initiatedById := senderId, status := .PENDING,
        lastMessageAt := some now, createdAt := now }
    return ({ db with dmRequests := db.dmRequests ++ [dmRequest] }, dmRequest)

/-- src/modules/dm/dm.service.ts `autoAcceptDmRequestOnReply`. -/
def autoAcceptDmRequestOnReply (db : DB) (now : Nat) (newId : String)
    (replierId originalSenderId : String) : Except AppError DB := do
  let (userAId, userBId) ← normalizeUserPair replierId originalSenderId
  match db.findDmRequest userAId userBId with
  | none =>
    -- No DM request exists, create one as ACCEPTED
    let created : DmRequest :=
      { id := newId, userAId := userAId, userBId := userBId,
        initiatedById := originalSenderId, status := .ACCEPTED,
        lastMessageAt := some now, createdAt := now }
    return { db with dmRequests := db.dmRequests ++ [created] }
  | some dmRequest =>
    if dmRequest.status = .PENDING ∧ dmRequest.initiatedById ≠ replierId then
      -- If PENDING and replier is the receiver, auto-accept
      return db.updateDmRequest dmRequest.id
        (fun r => { r with status := .ACCEPTED, lastMessageAt := some now })
    else if dmRequest.status = .ACCEPTED then
      -- Already accepted, just update lastMessageAt
      return db.updateDmRequest dmRequest.id
        (fun r => { r with lastMessageAt := some now })
    else
      return db

/-- src/modules/chats/language-preferences.service.ts `getLanguagePreference`. -/
def getLanguagePreference (db : DB) (userId chatId : String) :
    Option ChatLanguagePreference :=
  db.langPrefs.find? (fun p => p.chatId = chatId && p.userId = userId)

/-- src/modules/chats/language-preferences.service.ts
`getDefaultLanguagePreference`: (myLanguage, viewLanguage), defaulting both
to "en" when no row exists. -/
def getDefaultLanguagePreference (db : DB) (userId chatId : String) :
    String × String :=
  match getLanguagePreference db userId chatId with
  | some preference => (preference.myLanguage, preference.viewLanguage)
  | none => ("en", "en")

/-- Member ids of a chat, in row order (`prisma.chatMember.findMany`). -/
def chatMemberIds (db : DB) (chatId : String) : List String :=
  (db.chatMembers.filter (fun m => m.1 = chatId)).map (fun m => m.2)

/-- JS `Set.add` over a list kept in insertion order: append if absent. -/
def insertDistinct (acc : List String) (x : String) : List String :=
  if acc.contains x then acc else acc ++ [x]

/-- src/modules/chats/language-preferences.service.ts
`getAllMembersViewLanguages`: each member's viewLanguage (the JS
`preferenceMap.get(...) || 'en'` treats a missing row and an empty string
alike), deduplicated in first-occurrence order by the JS `Set`. -/
def getAllMembersViewLanguages (db : DB) (chatId : String) : List String :=
  ((chatMemberIds db chatId).map (fun uid =>
    match getLanguagePreference db uid chatId with
    | some p => if p.viewLanguage = "" then "en" else p.viewLanguage
    | none => "en")).foldl insertDistinct []

/-- Payload of a translation job (src/queue/translation.queue.ts). -/
structure TranslationJobData where
  messageId : String
  chatId : String
  fromLang : String
  toLang : String
  originalContent : String
  deriving DecidableEq, Repr

/-- A job as stored by BullMQ: deterministic id plus the retry options the
producer set (`attempts`, exponential backoff starting at `backoffDelay`). -/
structure QueuedJob where
  jobId : String
  data : TranslationJobData
  attempts : Nat
  backoffDelay : Nat
  deriving DecidableEq, Repr

/-- The translation queue; jobs keyed by their deterministic jobId. -/
structure TranslationQueue where
  jobs : List QueuedJob
  deriving DecidableEq, Repr

/-- The deterministic job id `translation:<messageId>:<toLang>`. -/
def translationJobId (messageId toLang : String) : String :=
  "translation:" ++ messageId ++ ":" ++ toLang

/-- src/queue/translation.queue.ts `addTranslationJob`: add under the
deterministic job id; BullMQ absorbs an add whose jobId is already present
(deduplication), otherwise the job is stored with `attempts :=
TRANSLATION_MAX_RETRIES` (`maxRetries` here) and exponential backoff with a
2000ms base delay. -/
def addTranslationJob (maxRetries : Nat) (q : TranslationQueue)
    (data : TranslationJobData) : TranslationQueue :=
  let jobId := translationJobId data.messageId data.toLang
  let newJob : QueuedJob :=
    { jobId := jobId, data := data, attempts := maxRetries, backoffDelay := 2000 }
  if q.jobs.any (fun j => j.jobId = jobId) then
    q
  else
    { jobs := q.jobs ++ [newJob] }

/-- Outcome of one execution of the worker's job processor: a return value,
or a thrown (plain, recoverable) `Error`. -/
inductive JobOutcome
  | completed (translationId : String)
  | skippedExisting (translationId : String)
  | thrownError (msg : String)
  deriving DecidableEq, Repr

/-- src/workers/translation.worker.ts, the processor passed to `new Worker`:
reload the message (throw if missing or soft-deleted), skip if a translation
row already exists, otherwise call the provider (`translate`; a provider
failure is a thrown error) and insert the row.  `newTransId` is the id Prisma
would generate; the socket event emitted on success carries no persistent
state and is omitted.  Every throw is a plain `Error` — the worker never
marks a failure as unrecoverable. -/
def processTranslationJob (db : DB)
    (translate : String → String → String → Except String String)
    (newTransId : String) (d : TranslationJobData) : DB × JobOutcome :=
  match db.findMessage d.messageId with
  | none => (db, .thrownError ("Message " ++ d.messageId ++ " not found or deleted"))
  | some message =>
    if message.deletedAt.isSome then
      (db, .thrownError ("Message " ++ d.messageId ++ " not found or deleted"))
    else
      match db.findTranslation d.messageId d.toLang with
      | some existing => (db, .skippedExisting existing.id)
      | none =>
        match translate d.originalContent d.fromLang d.toLang with
        | .error e => (db, .thrownError e)
        | .ok translatedContent =>
          let t : MessageTranslation :=
            { id := newTransId, messageId := d.messageId, lang := d.toLang,
              content := translatedContent, provider := "openai" }
          ({ db with translations := db.translations ++ [t] }, .completed newTransId)

/-- Result of running one queued job to completion through the queue's retry
policy: final store, final outcome, number of processor executions, and the
backoff delays waited between executions. -/
structure JobRunResult where
  db : DB
  finalOutcome : JobOutcome
  attemptsMade : Nat
  backoffDelays : List Nat
  deriving Repr

/-- BullMQ's retry loop for a job enqueued with `attempts` retries and
exponential backoff (delay `base * 2^k` before re-running after the k-th
failed attempt, k counted from 0): a thrown plain error is retried while
attempts remain; a returned value ends the job.  `made` counts executions
already performed, `remaining` the executions still allowed. -/
def runJobWithRetries
    (translate : String → String → String → Except String String)
    (newTransId : String) (d : TranslationJobData) (base : Nat) :
    DB → Nat → Nat → JobRunResult
  | db, made, 0 =>
    { db := db, finalOutcome := .thrownError "no attempts configured",
      attemptsMade := made, backoffDelays := [] }
  | db, made, remaining + 1 =>
    let step := processTranslationJob db translate newTransId d
    match step.2 with
    | .thrownError e =>
      if remaining = 0 then
        { db := step.1, finalOutcome := .thrownError e,
          attemptsMade := made + 1, backoffDelays := [] }
      else
        let rest := runJobWithRetries translate newTransId d base step.1 (made + 1) remaining
        { rest with backoffDelays := base * 2 ^ made :: rest.backoffDelays }
    | o =>
      { db := step.1, finalOutcome := o, attemptsMade := made + 1,
        backoffDelays := [] }

/-- Run a job as stored in the queue, honouring its configured `attempts`
and backoff base. -/
def runQueuedJob (translate : String → String → String → Except String String)
    (newTransId : String) (job : QueuedJob) (db : DB) : JobRunResult :=
  runJobWithRetries translate newTransId job.data job.backoffDelay db 0 job.attempts

/-- The message DTO returned to API callers (src/modules/messages); an
omitted `contentOriginal` is `none`. -/
structure MessageDTO where
  id : String
  chatId : String
  senderId : String
  type : MessageType
  content : String
  contentOriginal : Option String := none
  langOriginal : String
  langShown : String
  createdAt : Nat
  editedAt : Option Nat
  deletedAt : Option Nat
  deriving DecidableEq, Repr

/-- The per-message localization step inside `getMessages`
(src/modules/messages/messages.service.ts): original when the requester's
viewLanguage equals the sender's myLanguage, else the stored translation if
present, else fall back to the original. -/
def localizeMessage (db : DB) (chatId requesterViewLang : String)
    (msg : Message) : MessageDTO :=
  let originalLang := (getDefaultLanguagePreference db msg.senderId chatId).1
  if requesterViewLang = originalLang then
    { id := msg.id, chatId := msg.chatId, senderId := msg.senderId,
      type := msg.type, content := msg.content, langOriginal := originalLang,
      langShown := originalLang, createdAt := msg.createdAt,
      editedAt := msg.editedAt, deletedAt := msg.deletedAt }
  else
    match db.findTranslation msg.id requesterViewLang with
    | some translation =>
      { id := msg.id, chatId := msg.chatId, senderId := msg.senderId,
        type := msg.type, content := translation.content,
        contentOriginal := some msg.content, langOriginal := originalLang,
        langShown := requesterViewLang, createdAt := msg.createdAt,
        editedAt := msg.editedAt, deletedAt := msg.deletedAt }
    | none =>
      { id := msg.id, chatId := msg.chatId, senderId := msg.senderId,
        type := msg.type, content := msg.content, langOriginal := originalLang,
        langShown := originalLang, createdAt := msg.createdAt,
        editedAt := msg.editedAt, deletedAt := msg.deletedAt }

/-- Insert a message into a list sorted by ascending `createdAt`. -/
def insertByCreatedAt (m : Message) : List Message → List Message
  | [] => [m]
  | x :: xs =>
    if m.createdAt ≤ x.createdAt then m :: x :: xs
    else x :: insertByCreatedAt m xs

/-- The SQL `ORDER BY "createdAt" ASC` of the message query, as an insertion
sort. -/
def sortByCreatedAt : List Message → List Message
  | [] => []
  | m :: ms => insertByCreatedAt m (sortByCreatedAt ms)

/-- Page of localized messages returned by `getMessages`. -/
structure MessagesPage where
  messages : List MessageDTO
  nextCursor : Option String
  deriving DecidableEq, Repr

/-- src/modules/messages/messages.service.ts `getMessages`: membership
check, cursor filter, oldest-first order, `limit+1` look-ahead pagination,
then per-message localization for the requester. -/
def getMessages (db : DB) (userId chatId : String) (cursor : Option String)
    (limit : Nat) : Except AppError MessagesPage := do
  if ¬ db.isChatMember chatId userId then
    throw (.forbidden "You are not a member of this chat")
  let cursorGt : Option Nat :=
    match cursor with
    | some c =>
      match db.findMessage c with
      | some cursorMessage =>
        if cursorMessage.chatId = chatId then some cursorMessage.createdAt else none
      | none => none
    | none => none
  let requesterViewLang := (getDefaultLanguagePreference db userId chatId).2
  let selected := db.messages.filter (fun m =>
    m.chatId = chatId && m.deletedAt.isNone &&
      (match cursorGt with
       | some t => decide (t < m.createdAt)
       | none => true))
  let fetched := (sortByCreatedAt selected).take (limit + 1)
  let hasMore := limit < fetched.length
  let messagesToReturn := if hasMore then fetched.take limit else fetched
  let nextCursor :=
    if hasMore then messagesToReturn.getLast?.map (fun m => m.id) else none
  return { messages := messagesToReturn.map (localizeMessage db chatId requesterViewLang),
           nextCursor := nextCursor }

/-- The `if (chat.type === 'DM' && chat.dmChat)` block of `sendMessage`:
permission check, then reply auto-accept or create/update of the DM
request. -/
def sendMessageDmGate (db : DB) (now : Nat) (newDmReqId : String)
    (userId : String) (chat : Chat) : Except AppError DB := do
  match chat.type, chat.dmChat with
  | .DM, some dmPair =>
    let otherUserId := if dmPair.1 = userId then dmPair.2 else dmPair.1
    let permission ← canSendMessage db userId otherUserId
    if ¬ permission.allowed then
      throw (.forbidden (permission.reason.getD "Message not allowed"))
    else if permission.requiresDmRequest = some true then
      let (userAId, userBId) ← normalizeUserPair userId otherUserId
      match db.findDmRequest userAId userBId with
      | some existingDmRequest =>
        if existingDmRequest.initiatedById = otherUserId ∧
            existingDmRequest.status = .PENDING then
          -- This is a reply - auto-accept
          autoAcceptDmRequestOnReply db now newDmReqId userId otherUserId
        else
          (createOrUpdateDmRequest db now newDmReqId userId otherUserId).map Prod.fst
      | none =>
        (createOrUpdateDmRequest db now newDmReqId userId otherUserId).map Prod.fst
    else
      return db
  | _, _ => return db

/-- One pass over the language list of `sendMessage`'s enqueue pipeline
(`limitedTargetLanguages.filter(...).map(async ...)` plus the
`Promise.all(...).catch` handler): skip languages whose translation row
already exists, otherwise hand the job to `addTranslationJob`.
`dispatchFails` says which enqueue operations reject; a rejection is caught
and logged, never thrown.  Returns the final queue, every job handed to the
queue layer, and the logged errors. -/
def dispatchTranslationJobs (maxRetries : Nat)
    (dispatchFails : TranslationJobData → Bool) (db : DB)
    (messageId chatId fromLang content : String) :
    List String → TranslationQueue → List TranslationJobData → List String →
    TranslationQueue × List TranslationJobData × List String
  | [], q, attempted, errs => (q, attempted, errs)
  | targetLang :: rest, q, attempted, errs =>
    if (db.findTranslation messageId targetLang).isSome then
      dispatchTranslationJobs maxRetries dispatchFails db messageId chatId
        fromLang content rest q attempted errs
    else
      let jobData : TranslationJobData :=
        { messageId := messageId, chatId := chatId, fromLang := fromLang,
          toLang := targetLang, originalContent := content }
      if dispatchFails jobData then
        dispatchTranslationJobs maxRetries dispatchFails db messageId chatId
          fromLang content rest q (attempted ++ [jobData])
          (errs ++ ["Error enqueueing translation jobs"])
      else
        dispatchTranslationJobs maxRetries dispatchFails db messageId chatId
          fromLang content rest (addTranslationJob maxRetries q jobData)
          (attempted ++ [jobData]) errs

/-- Everything `sendMessage` produces: the new store and queue, the DTO
returned to the sender, the translation jobs handed to the queue layer, and
the dispatch errors that were caught and logged. -/
structure SendResult where
  db : DB
  queue : TranslationQueue
  dto : MessageDTO
  attemptedJobs : List TranslationJobData
  dispatchErrors : List String
  deriving Repr

/-- The tail of `sendMessage` after the DM gate (message persistence,
language fan-out capped at 10 with the sender's language skipped, job
dispatch, chat `updatedAt` bump, and the sender-facing DTO), as a function
of the post-gate store `db1`. -/
def sendMessageAssemble (maxRetries : Nat) (q : TranslationQueue)
    (now : Nat) (dispatchFails : TranslationJobData → Bool)
    (newMsgId userId chatId content : String) (db1 : DB) : SendResult :=
  -- Create message
  let message : Message :=
    { id := newMsgId, chatId := chatId, senderId := userId, type := .TEXT,
      content := strTrim content, createdAt := now, editedAt := none,
      deletedAt := none }
  let db2 := { db1 with messages := db1.messages ++ [message] }
  let originalLang := (getDefaultLanguagePreference db2 userId chatId).1
  let targetLanguages := getAllMembersViewLanguages db2 chatId
  -- Safety limit: max 10 target languages per message
  let limitedTargetLanguages :=
    if targetLanguages.length > 10 then targetLanguages.take 10
    else targetLanguages
  let langsToDispatch :=
    limitedTargetLanguages.filter (fun targetLang => targetLang ≠ originalLang)
  let dispatched :=
    dispatchTranslationJobs maxRetries dispatchFails db2 message.id chatId
      originalLang message.content langsToDispatch q [] []
  let db3 := { db2 with chats := db2.chats.map (fun c =>
    if c.id = chatId then { c with updatedAt := now } else c) }
  { db := db3, queue := dispatched.1,
    dto := { id := message.id, chatId := message.chatId,
             senderId := message.senderId, type := message.type,
             content := message.content, langOriginal := originalLang,
             langShown := originalLang, createdAt := message.createdAt,
             editedAt := message.editedAt, deletedAt := message.deletedAt },
    attemptedJobs := dispatched.2.1, dispatchErrors := dispatched.2.2 }

/-- src/modules/messages/messages.service.ts `sendMessage`: validation,
membership, DM-request gate, then `sendMessageAssemble`.  `maxRetries` is
`env.TRANSLATION_MAX_RETRIES`; `now` is `new Date()`; `newMsgId` and
`newDmReqId` are the ids Prisma would generate. -/
def sendMessage (maxRetries : Nat) (db : DB) (q : TranslationQueue)
    (now : Nat) (dispatchFails : TranslationJobData → Bool)
    (newMsgId newDmReqId : String) (userId chatId content : String) :
    Except AppError SendResult := do
  if strLength (strTrim content) = 0 then
    throw (.validation "Message content is required")
  if strLength content > 5000 then
    throw (.validation "Message content too long (max 5000 characters)")
  if ¬ db.isChatMember chatId userId then
    throw (.forbidden "You are not a member of this chat")
  let chat ← match db.findChat chatId with
    | none => throw (.notFound "Chat not found")
    | some c => pure c
  let db1 ← sendMessageDmGate db now newDmReqId userId chat
  return sendMessageAssemble maxRetries q now dispatchFails newMsgId userId
    chatId content db1

/-! ### Helper lemmas -/

/-- `find?` over a map whose function does not change whether the predicate
holds returns the image of the original `find?`. -/
theorem find?_map_pres {α : Type} (p : α → Bool) (f : α → α) (l : List α)
    (hf : ∀ a, p (f a) = p a) :
    (l.map f).find? p = (l.find? p).map f := by
  induction l with
  | nil => rfl
  | cons a l ih =>
    cases h : p a with
    | true => simp [List.find?_cons, hf, h]
    | false => simp [List.find?_cons, hf, h, ih]

/-- The DM-request update map used by the services preserves the pair key,
so the row found for a pair after an id-keyed update is the updated image of
the row found before. -/
theorem findDmRequest_update (db : DB) (id lo hi : String)
    (g : DmRequest → DmRequest)
    (hg : ∀ r, (g r).userAId = r.userAId ∧ (g r).userBId = r.userBId) :
    (db.updateDmRequest id g).findDmRequest lo hi =
      (db.findDmRequest lo hi).map (fun r => if r.id = id then g r else r) := by
  unfold DB.updateDmRequest DB.findDmRequest
  exact find?_map_pres _ _ _ (fun a => by
    by_cases h : a.id = id <;> simp [h, (hg a).1, (hg a).2])

/-! ### C10: autoAcceptDmRequestOnReply with no existing row -/

/-- C10: when `autoAcceptDmRequestOnReply(replierId, originalSenderId)` runs
with no DmRequest row for the normalized pair, it creates a row directly in
status ACCEPTED with `initiatedBy = originalSenderId` and `lastMessageAt`
set, bypassing PENDING. -/
theorem autoAccept_no_row_creates_accepted (db : DB) (now : Nat)
    (newId replierId originalSenderId lo hi : String)
    (hnorm : normalizeUserPair replierId originalSenderId = .ok (lo, hi))
    (hnone : db.findDmRequest lo hi = none) :
    (autoAcceptDmRequestOnReply db now newId replierId originalSenderId).toOption.map
      (fun db2 => db2.findDmRequest lo hi) =
    some (some { id := newId, userAId := lo, userBId := hi,
                 initiatedById := originalSenderId, status := .ACCEPTED,
                 lastMessageAt := some now, createdAt := now }) := by
  unfold autoAcceptDmRequestOnReply
  rw [hnorm]
  simp only [bind, Except.bind, hnone]
  simp only [DB.findDmRequest] at hnone
  simp [pure, Except.pure, Except.toOption, DB.findDmRequest,
    List.find?_append, hnone, List.find?_cons]

/-- Witness for C10 at a concrete store. -/
theorem autoAccept_no_row_creates_accepted_witness :
    (normalizeUserPair "b" "a" = .ok ("a", "b") ∧
      (DB.mk [] [] [] [] [] [] [] []).findDmRequest "a" "b" = none) ∧
    (autoAcceptDmRequestOnReply (DB.mk [] [] [] [] [] [] [] []) 7 "r9" "b" "a").toOption.map
      (fun db2 => db2.findDmRequest "a" "b") =
    some (some { id := "r9", userAId := "a", userBId := "b",
                 initiatedById := "a", status := .ACCEPTED,
                 lastMessageAt := some 7, createdAt := 7 }) :=
  ⟨⟨by rfl, by rfl⟩,
    autoAccept_no_row_creates_accepted _ 7 "r9" "b" "a" "a" "b"
      (by rfl) (by rfl)⟩

/-! ### C8: resend on a DECLINED request is a frame-preserving update -/

/-- C8: when `createOrUpdateDmRequest` runs against an existing DECLINED
row (a new send from either party) and succeeds, the returned row is the old
row with only `status` (now PENDING) and `lastMessageAt` changed — in
particular `initiatedBy` keeps its value from row creation — and the store
change is exactly the id-keyed rewrite of that row, with every other table
untouched. -/
theorem declined_resend_only_touches_status_and_time
    (db : DB) (now : Nat) (newId senderId receiverId lo hi : String)
    (req : DmRequest)
    (hnorm : normalizeUserPair senderId receiverId = .ok (lo, hi))
    (hfound : db.findDmRequest lo hi = some req)
    (hdecl : req.status = .DECLINED)
    (hok : (createOrUpdateDmRequest db now newId senderId receiverId).isOk = true) :
    createOrUpdateDmRequest db now newId senderId receiverId =
      .ok (db.updateDmRequest req.id
             (fun _ => { req with status := .PENDING, lastMessageAt := some now }),
           { req with status := .PENDING, lastMessageAt := some now }) := by
  unfold createOrUpdateDmRequest at hok ⊢
  simp only [bind, Except.bind] at hok ⊢
  cases hv : validateMessagePermission db senderId receiverId with
  | error e =>
    rw [hv] at hok
    simp [Except.isOk, Except.toBool] at hok
  | ok u =>
    simp only [hnorm, hfound, hdecl]
    simp [pure, Except.pure]

/-- The DECLINED row used by the C8 witness. -/
def c8Declined : DmRequest :=
  { id := "r1", userAId := "a", userBId := "b", initiatedById := "a",
    status := .DECLINED, lastMessageAt := some 0, createdAt := 0 }

/-- Store holding only the DECLINED row, for the C8 witness. -/
def c8Db : DB := DB.mk [] [] [c8Declined] [] [] [] [] []

/-- Witness for C8: a DECLINED row for the pair (a, b) initiated by a, and
a new send from b. -/
theorem declined_resend_only_touches_status_and_time_witness :
    (normalizeUserPair "b" "a" = .ok ("a", "b") ∧
      c8Db.findDmRequest "a" "b" = some c8Declined ∧
      c8Declined.status = .DECLINED) ∧
    createOrUpdateDmRequest c8Db 5 "r2" "b" "a" =
      .ok (c8Db.updateDmRequest c8Declined.id
             (fun _ => { c8Declined with status := .PENDING, lastMessageAt := some 5 }),
           { c8Declined with status := .PENDING, lastMessageAt := some 5 }) :=
  ⟨⟨by rfl, by rfl, by rfl⟩,
    declined_resend_only_touches_status_and_time c8Db 5 "r2" "b" "a" "a" "b"
      c8Declined (by rfl) (by rfl) (by rfl) (by rfl)⟩

/-- Store for the C1 witness: b has blocked a. -/
def c1Db : DB := DB.mk [UserBlock.mk "b" "a"] [] [] [] [] [] [] []

/-- Witness for C1 at a concrete store where b has blocked a. -/
theorem canSendMessage_matches_spec_witness :
    (("a" : String) ≠ "b") ∧
    (canSendMessage c1Db "a" "b" = .ok (specCanSend c1Db "a" "b") ∧
      (((c1Db.findUserBlock "a" "b").isSome ∨ (c1Db.findUserBlock "b" "a").isSome) →
        (canSendMessage c1Db "a" "b").toOption.map (fun p => p.allowed) = some false ∧
        (canSendMessage c1Db "b" "a").toOption.map (fun p => p.allowed) = some false)) :=
  ⟨by decide, canSendMessage_matches_spec c1Db "a" "b" (by decide)⟩

/-! ### Frame lemmas: the DM-request operations touch only `dmRequests` -/

/-- `createOrUpdateDmRequest` leaves every table except `dmRequests`
unchanged. -/
theorem createOrUpdateDmRequest_tables (db : DB) (now : Nat)
    (newId senderId receiverId : String) (db' : DB) (ret : DmRequest)
    (h : createOrUpdateDmRequest db now newId senderId receiverId = .ok (db', ret)) :
    db'.userBlocks = db.userBlocks ∧ db'.friendships = db.friendships ∧
    db'.chats = db.chats ∧ db'.chatMembers = db.chatMembers ∧
    db'.messages = db.messages ∧ db'.langPrefs = db.langPrefs ∧
    db'.translations = db.translations := by
  unfold createOrUpdateDmRequest at h
  simp only [bind, Except.bind, pure, Except.pure] at h
  repeat' split at h
  all_goals first
    | exact Except.noConfusion h
    | (rw [Except.ok.injEq, Prod.mk.injEq] at h
       obtain ⟨h1, h2⟩ := h
       subst h1
       simp [DB.updateDmRequest])

/-- `autoAcceptDmRequestOnReply` leaves every table except `dmRequests`
unchanged. -/
theorem autoAcceptDmRequestOnReply_tables (db : DB) (now : Nat)
    (newId replierId originalSenderId : String) (db' : DB)
    (h : autoAcceptDmRequestOnReply db now newId replierId originalSenderId = .ok db') :
    db'.userBlocks = db.userBlocks ∧ db'.friendships = db.friendships ∧
    db'.chats = db.chats ∧ db'.chatMembers = db.chatMembers ∧
    db'.messages = db.messages ∧ db'.langPrefs = db.langPrefs ∧
    db'.translations = db.translations := by
  unfold autoAcceptDmRequestOnReply at h
  simp only [bind, Except.bind, pure, Except.pure] at h
  repeat' split at h
  all_goals first
    | exact Except.noConfusion h
    | (rw [Except.ok.injEq] at h
       subst h
       simp [DB.updateDmRequest])

/-- The DM gate of `sendMessage` leaves every table except `dmRequests`
unchanged. -/
theorem sendMessageDmGate_tables (db : DB) (now : Nat)
    (newDmReqId userId : String) (chat : Chat) (db' : DB)
    (h : sendMessageDmGate db now newDmReqId userId chat = .ok db') :
    db'.userBlocks = db.userBlocks ∧ db'.friendships = db.friendships ∧
    db'.chats = db.chats ∧ db'.chatMembers = db.chatMembers ∧
    db'.messages = db.messages ∧ db'.langPrefs = db.langPrefs ∧
    db'.translations = db.translations := by
  unfold sendMessageDmGate at h
  simp only [bind, Except.bind, pure, Except.pure] at h
  repeat' split at h
  all_goals first
    | exact Except.noConfusion h
    | (rw [Except.ok.injEq] at h; subst h; simp)
    | exact autoAcceptDmRequestOnReply_tables _ _ _ _ _ _ h
    | (cases hc : createOrUpdateDmRequest db now newDmReqId userId _ with
       | error e =>
         rw [hc] at h
         exact Except.noConfusion h
       | ok p =>
         rw [hc] at h
         simp only [Except.map] at h
         rw [Except.ok.injEq] at h
         subst h
         exact createOrUpdateDmRequest_tables _ _ _ _ _ _ _ hc)

/-- Decomposition of a successful `sendMessage`: the chat was found, the DM
gate succeeded, and the final store's `dmRequests` table is the gate's. -/
theorem sendMessage_ok_decompose (maxRetries : Nat) (db : DB)
    (q : TranslationQueue) (now : Nat)
    (dispatchFails : TranslationJobData → Bool)
    (newMsgId newDmReqId userId chatId content : String) (res : SendResult)
    (h : sendMessage maxRetries db q now dispatchFails newMsgId newDmReqId
          userId chatId content = .ok res) :
    ∃ chat db1, db.findChat chatId = some chat ∧
      sendMessageDmGate db now newDmReqId userId chat = .ok db1 ∧
      res = sendMessageAssemble maxRetries q now dispatchFails newMsgId
        userId chatId content db1 ∧
      res.db.dmRequests = db1.dmRequests := by
  unfold sendMessage at h
  simp only [bind, Except.bind, pure, Except.pure, throw, throwThe,
    MonadExceptOf.throw] at h
  repeat' split at h
  all_goals first
    | exact Except.noConfusion h
    | exact ⟨_, _, by assumption, by assumption,
        by rw [Except.ok.injEq] at h; exact h.symm,
        by rw [Except.ok.injEq] at h; subst h; simp [sendMessageAssemble]⟩

/-- With no block in either direction and no ACCEPTED friendship for the
normalized pair, `canSendMessage` allows with `requiresDmRequest = true`. -/
theorem canSendMessage_requires_request (db : DB) (s r lo hi : String)
    (hnorm : normalizeUserPair s r = .ok (lo, hi))
    (hb1 : db.findUserBlock r s = none)
    (hb2 : db.findUserBlock s r = none)
    (hfr : (db.findFriendship lo hi).all
      (fun f => f.status ≠ FriendshipStatus.ACCEPTED) = true) :
    canSendMessage db s r =
      .ok { allowed := true, requiresDmRequest := some true } := by
  unfold canSendMessage
  simp only [hb1, hb2, bind, Except.bind, hnorm]
  cases hf : db.findFriendship lo hi with
  | none => simp [pure, Except.pure]
  | some f =>
    rw [hf] at hfr
    simp [Option.all] at hfr
    simp [pure, Except.pure, hfr]

/-- `canSendMessage` denies when the receiver has blocked the sender. -/
theorem canSendMessage_blocked_receiver (db : DB) (s r : String) (b : UserBlock)
    (hb : db.findUserBlock r s = some b) :
    canSendMessage db s r =
      .ok { allowed := false,
            reason := some "You have been blocked by this user" } := by
  unfold canSendMessage
  simp [hb, pure, Except.pure]

/-- `canSendMessage` denies when the sender has blocked the receiver. -/
theorem canSendMessage_blocked_sender (db : DB) (s r : String) (b : UserBlock)
    (hb1 : db.findUserBlock r s = none) (hb : db.findUserBlock s r = some b) :
    canSendMessage db s r =
      .ok { allowed := false, reason := some "You have blocked this user" } := by
  unfold canSendMessage
  simp [hb1, hb, pure, Except.pure]

/-- `autoAcceptDmRequestOnReply` on a PENDING row the replier did not
initiate updates the row to ACCEPTED and refreshes `lastMessageAt`. -/
theorem autoAccept_pending_updates (db : DB) (now : Nat)
    (newId replier other lo hi : String) (req : DmRequest)
    (hnorm : normalizeUserPair replier other = .ok (lo, hi))
    (hreq : db.findDmRequest lo hi = some req)
    (hpend : req.status = .PENDING)
    (hinit : req.initiatedById ≠ replier) :
    autoAcceptDmRequestOnReply db now newId replier other =
      .ok (db.updateDmRequest req.id
        (fun r => { r with status := .ACCEPTED, lastMessageAt := some now })) := by
  unfold autoAcceptDmRequestOnReply
  rw [hnorm]
  simp only [bind, Except.bind, hreq]
  rw [if_pos ⟨hpend, hinit⟩]
  simp [pure, Except.pure]

/-- The DM gate, invoked for the non-initiator's send while the pair's
request is PENDING (and the pair has no ACCEPTED friendship), auto-accepts
the request. -/
theorem sendMessageDmGate_reply_accepts (db : DB) (now : Nat)
    (newDmReqId : String) (chat : Chat) (dmPair : String × String)
    (replier other lo hi : String) (req : DmRequest)
    (htype : chat.type = .DM) (hpair : chat.dmChat = some dmPair)
    (hother : (if dmPair.1 = replier then dmPair.2 else dmPair.1) = other)
    (hnorm : normalizeUserPair replier other = .ok (lo, hi))
    (hreq : db.findDmRequest lo hi = some req)
    (hinit : req.initiatedById = other)
    (hpend : req.status = .PENDING)
    (hfr : (db.findFriendship lo hi).all
      (fun f => f.status ≠ FriendshipStatus.ACCEPTED) = true)
    (hgate : (sendMessageDmGate db now newDmReqId replier chat).isOk = true) :
    sendMessageDmGate db now newDmReqId replier chat =
      .ok (db.updateDmRequest req.id
        (fun r => { r with status := .ACCEPTED, lastMessageAt := some now })) := by
  have hne : replier ≠ other := by
    intro hEq
    rw [hEq] at hnorm
    simp [normalizeUserPair] at hnorm
  unfold sendMessageDmGate at hgate ⊢
  simp only [htype, hpair] at hgate ⊢
  rw [hother] at hgate ⊢
  cases hb1 : db.findUserBlock other replier with
  | some b =>
    rw [canSendMessage_blocked_receiver db replier other b hb1] at hgate
    simp [bind, Except.bind, throw, throwThe, MonadExceptOf.throw,
      Except.isOk, Except.toBool] at hgate
  | none =>
    cases hb2 : db.findUserBlock replier other with
    | some b =>
      rw [canSendMessage_blocked_sender db replier other b hb1 hb2] at hgate
      simp [bind, Except.bind, throw, throwThe, MonadExceptOf.throw,
        Except.isOk, Except.toBool] at hgate
    | none =>
      rw [canSendMessage_requires_request db replier other lo hi hnorm hb1 hb2 hfr]
      simp only [bind, Except.bind, hnorm, hreq, hinit, hpend]
      simp
      exact autoAccept_pending_updates db now newDmReqId replier other lo hi req
        hnorm hreq hpend (by rw [hinit]; exact fun hEq => hne hEq.symm)

/-! ### C2: auto-accept on reply -/

/-- C2 (amended): if the pair's DmRequest is PENDING with the other party as
initiator, the pair has no ACCEPTED friendship (so the send is routed
through the DM-request machinery), and the non-initiator's send succeeds,
then the request ends ACCEPTED with `lastMessageAt` refreshed and
`initiatedBy` unchanged — with no explicit accept call. -/
theorem pending_reply_auto_accepts (maxRetries : Nat) (db : DB)
    (q : TranslationQueue) (now : Nat)
    (dispatchFails : TranslationJobData → Bool)
    (newMsgId newDmReqId replier chatId content other lo hi : String)
    (chat : Chat) (dmPair : String × String) (req : DmRequest)
    (hchat : db.findChat chatId = some chat)
    (htype : chat.type = .DM) (hpair : chat.dmChat = some dmPair)
    (hother : (if dmPair.1 = replier then dmPair.2 else dmPair.1) = other)
    (hnorm : normalizeUserPair replier other = .ok (lo, hi))
    (hreq : db.findDmRequest lo hi = some req)
    (hinit : req.initiatedById = other)
    (hpend : req.status = .PENDING)
    (hfr : (db.findFriendship lo hi).all
      (fun f => f.status ≠ FriendshipStatus.ACCEPTED) = true)
    (hok : (sendMessage maxRetries db q now dispatchFails newMsgId newDmReqId
      replier chatId content).isOk = true) :
    (sendMessage maxRetries db q now dispatchFails newMsgId newDmReqId
      replier chatId content).toOption.map
        (fun res => (res.db.findDmRequest lo hi).map
          (fun r2 => (r2.status, r2.lastMessageAt, r2.initiatedById))) =
    some (some (DmRequestStatus.ACCEPTED, some now, other)) := by
  cases hres : sendMessage maxRetries db q now dispatchFails newMsgId
      newDmReqId replier chatId content with
  | error e => rw [hres] at hok; simp [Except.isOk, Except.toBool] at hok
  | ok res =>
    obtain ⟨chat', db1, hchat', hgate, hassem, hdm⟩ :=
      sendMessage_ok_decompose maxRetries db q now dispatchFails newMsgId
        newDmReqId replier chatId content res hres
    rw [hchat'] at hchat
    injection hchat with hchat
    subst hchat
    have hgate2 := sendMessageDmGate_reply_accepts db now newDmReqId chat'
      dmPair replier other lo hi req htype hpair hother hnorm hreq hinit
      hpend hfr (by rw [hgate]; rfl)
    rw [hgate] at hgate2
    injection hgate2 with hgate2
    have hmap : (Except.ok res : Except AppError SendResult).toOption = some res := rfl
    rw [hmap, Option.map_some']
    have hsame : res.db.findDmRequest lo hi = db1.findDmRequest lo hi := by
      unfold DB.findDmRequest; rw [hdm]
    rw [hsame, hgate2,
      findDmRequest_update db req.id lo hi
        (fun r => { r with status := DmRequestStatus.ACCEPTED,
                           lastMessageAt := some now })
        (fun r => ⟨rfl, rfl⟩),
      hreq]
    simp [hinit]

/-- PENDING request from a, used by the C2 fixtures. -/
def c2Req : DmRequest :=
  { id := "r1", userAId := "a", userBId := "b", initiatedById := "a",
    status := .PENDING, lastMessageAt := some 0, createdAt := 0 }

/-- DM chat between a and b, used by the C2/C3/C7/C9 fixtures. -/
def dmChatAB : Chat :=
  { id := "c", type := .DM, dmChat := some ("a", "b"), updatedAt := 0 }

/-- ACCEPTED friendship row between a and b, for the C2 counterexample. -/
def c2Friendship : Friendship :=
  { userAId := "a", userBId := "b", requestedById := "a", status := .ACCEPTED }

/-- C2 counterexample store: PENDING DmRequest from a to b *and* an
ACCEPTED friendship for the same pair. -/
def c2xDb : DB :=
  DB.mk [] [c2Friendship] [c2Req] [dmChatAB] [("c", "a"), ("c", "b")] [] [] []

/-- C2 witness store: PENDING DmRequest from a to b, no friendship. -/
def c2wDb : DB :=
  DB.mk [] [] [c2Req] [dmChatAB] [("c", "a"), ("c", "b")] [] [] []

/-- Counterexample to C2 as frozen: with a PENDING DmRequest initiated by a
and an ACCEPTED friendship for the same pair, b's send succeeds but the
request stays PENDING — it does not transition to ACCEPTED. -/
theorem pending_reply_with_friendship_stays_pending :
    (sendMessage 5 c2xDb (TranslationQueue.mk []) 10 (fun _ => false)
      "m1" "r2" "b" "c" "hi").isOk = true ∧
    c2xDb.findDmRequest "a" "b" = some c2Req ∧
    c2Req.status = DmRequestStatus.PENDING ∧
    c2Req.initiatedById = "a" ∧
    (sendMessage 5 c2xDb (TranslationQueue.mk []) 10 (fun _ => false)
      "m1" "r2" "b" "c" "hi").toOption.map
        (fun res => (res.db.findDmRequest "a" "b").map (fun r => r.status)) ≠
      some (some DmRequestStatus.ACCEPTED) := by
  refine ⟨by decide, by decide, by decide, by decide, by decide⟩

/-- Witness for the amended C2 at the concrete witness store. -/
theorem pending_reply_auto_accepts_witness :
    (c2wDb.findChat "c" = some dmChatAB ∧
      dmChatAB.type = .DM ∧ dmChatAB.dmChat = some ("a", "b") ∧
      (if ("a", "b").1 = "b" then ("a", "b").2 else ("a", "b").1) = "a" ∧
      normalizeUserPair "b" "a" = .ok ("a", "b") ∧
      c2wDb.findDmRequest "a" "b" = some c2Req ∧
      c2Req.initiatedById = "a" ∧ c2Req.status = .PENDING ∧
      (c2wDb.findFriendship "a" "b").all
        (fun f => f.status ≠ FriendshipStatus.ACCEPTED) = true ∧
      (sendMessage 5 c2wDb (TranslationQueue.mk []) 10 (fun _ => false)
        "m1" "r2" "b" "c" "hi").isOk = true) ∧
    (sendMessage 5 c2wDb (TranslationQueue.mk []) 10 (fun _ => false)
      "m1" "r2" "b" "c" "hi").toOption.map
        (fun res => (res.db.findDmRequest "a" "b").map
          (fun r2 => (r2.status, r2.lastMessageAt, r2.initiatedById))) =
    some (some (DmRequestStatus.ACCEPTED, some 10, "a")) :=
  ⟨⟨by decide, by decide, by decide, by decide, by rfl, by decide,
     by decide, by decide, by decide, by decide⟩,
    pending_reply_auto_accepts 5 c2wDb (TranslationQueue.mk []) 10
      (fun _ => false) "m1" "r2" "b" "c" "hi" "a" "a" "b" dmChatAB ("a", "b")
      c2Req (by decide) (by decide) (by decide) (by decide) (by rfl)
      (by decide) (by decide) (by decide) (by decide) (by decide)⟩

/-! ### C7: first message creates a PENDING request -/

/-- With no blocks, no Friendship row and no DmRequest row for the
normalized pair, `createOrUpdateDmRequest` creates a PENDING row initiated
by the sender with `lastMessageAt` set. -/
theorem createOrUpdate_creates_pending (db : DB) (now : Nat)
    (newId sender receiver lo hi : String)
    (hnorm : normalizeUserPair sender receiver = .ok (lo, hi))
    (hb1 : db.findUserBlock receiver sender = none)
    (hb2 : db.findUserBlock sender receiver = none)
    (hfr : db.findFriendship lo hi = none)
    (hreq : db.findDmRequest lo hi = none) :
    createOrUpdateDmRequest db now newId sender receiver =
      .ok ({ db with dmRequests := db.dmRequests ++
              [{ id := newId, userAId := lo, userBId := hi,
                 initiatedById := sender, status := .PENDING,
                 lastMessageAt := some now, createdAt := now }] },
           { id := newId, userAId := lo, userBId := hi,
             initiatedById := sender, status := .PENDING,
             lastMessageAt := some now, createdAt := now }) := by
  unfold createOrUpdateDmRequest validateMessagePermission
  rw [canSendMessage_requires_request db sender receiver lo hi hnorm hb1 hb2
    (by rw [hfr]; rfl)]
  simp only [bind, Except.bind, hnorm, hreq]
  simp [pure, Except.pure]

/-- The DM gate at first contact (no blocks, no friendship, no request row)
appends the fresh PENDING row. -/
theorem sendMessageDmGate_first_contact (db : DB) (now : Nat)
    (newDmReqId : String) (chat : Chat) (dmPair : String × String)
    (sender other lo hi : String)
    (htype : chat.type = .DM) (hpair : chat.dmChat = some dmPair)
    (hother : (if dmPair.1 = sender then dmPair.2 else dmPair.1) = other)
    (hnorm : normalizeUserPair sender other = .ok (lo, hi))
    (hb1 : db.findUserBlock other sender = none)
    (hb2 : db.findUserBlock sender other = none)
    (hfr : db.findFriendship lo hi = none)
    (hreq : db.findDmRequest lo hi = none) :
    sendMessageDmGate db now newDmReqId sender chat =
      .ok { db with dmRequests := db.dmRequests ++
              [{ id := newDmReqId, userAId := lo, userBId := hi,
                 initiatedById := sender, status := .PENDING,
                 lastMessageAt := some now, createdAt := now }] } := by
  unfold sendMessageDmGate
  simp only [htype, hpair]
  rw [hother]
  rw [canSendMessage_requires_request db sender other lo hi hnorm hb1 hb2
    (by rw [hfr]; rfl)]
  simp only [bind, Except.bind, hnorm, hreq]
  simp only [createOrUpdate_creates_pending db now newDmReqId sender other
    lo hi hnorm hb1 hb2 hfr hreq]
  simp [Except.map]

/-- C7: when A's send is the first contact with B — no Friendship row, no
DmRequest row, no block for the pair — and the send succeeds, the store now
holds a DmRequest row for the normalized pair in status PENDING with
`initiatedBy = A` and `lastMessageAt = now`. -/
theorem first_message_creates_pending_request (maxRetries : Nat) (db : DB)
    (q : TranslationQueue) (now : Nat)
    (dispatchFails : TranslationJobData → Bool)
    (newMsgId newDmReqId sender chatId content other lo hi : String)
    (chat : Chat) (dmPair : String × String)
    (hchat : db.findChat chatId = some chat)
    (htype : chat.type = .DM) (hpair : chat.dmChat = some dmPair)
    (hother : (if dmPair.1 = sender then dmPair.2 else dmPair.1) = other)
    (hnorm : normalizeUserPair sender other = .ok (lo, hi))
    (hb1 : db.findUserBlock other sender = none)
    (hb2 : db.findUserBlock sender other = none)
    (hfr : db.findFriendship lo hi = none)
    (hreq : db.findDmRequest lo hi = none)
    (hok : (sendMessage maxRetries db q now dispatchFails newMsgId newDmReqId
      sender chatId content).isOk = true) :
    (sendMessage maxRetries db q now dispatchFails newMsgId newDmReqId
      sender chatId content).toOption.map
        (fun res => res.db.findDmRequest lo hi) =
    some (some { id := newDmReqId, userAId := lo, userBId := hi,
                 initiatedById := sender, status := .PENDING,
                 lastMessageAt := some now, createdAt := now }) := by
  cases hres : sendMessage maxRetries db q now dispatchFails newMsgId
      newDmReqId sender chatId content with
  | error e => rw [hres] at hok; simp [Except.isOk, Except.toBool] at hok
  | ok res =>
    obtain ⟨chat', db1, hchat', hgate, hassem, hdm⟩ :=
      sendMessage_ok_decompose maxRetries db q now dispatchFails newMsgId
        newDmReqId sender chatId content res hres
    rw [hchat'] at hchat
    injection hchat with hchat
    subst hchat
    rw [sendMessageDmGate_first_contact db now newDmReqId chat' dmPair sender
      other lo hi htype hpair hother hnorm hb1 hb2 hfr hreq] at hgate
    injection hgate with hgate
    have hmap : (Except.ok res : Except AppError SendResult).toOption = some res := rfl
    rw [hmap, Option.map_some']
    have hsame : res.db.findDmRequest lo hi = db1.findDmRequest lo hi := by
      unfold DB.findDmRequest; rw [hdm]
    rw [hsame, ← hgate]
    unfold DB.findDmRequest at hreq ⊢
    simp only [List.find?_append, hreq]
    simp [List.find?_cons]

/-- C7 witness store: a and b share a DM chat, nothing else. -/
def c7Db : DB :=
  DB.mk [] [] [] [dmChatAB] [("c", "a"), ("c", "b")] [] [] []

/-- Witness for C7: a's very first message to b. -/
theorem first_message_creates_pending_request_witness :
    (c7Db.findChat "c" = some dmChatAB ∧
      dmChatAB.type = .DM ∧ dmChatAB.dmChat = some ("a", "b") ∧
      (if ("a", "b").1 = "a" then ("a", "b").2 else ("a", "b").1) = "b" ∧
      normalizeUserPair "a" "b" = .ok ("a", "b") ∧
      c7Db.findUserBlock "b" "a" = none ∧
      c7Db.findUserBlock "a" "b" = none ∧
      c7Db.findFriendship "a" "b" = none ∧
      c7Db.findDmRequest "a" "b" = none ∧
      (sendMessage 5 c7Db (TranslationQueue.mk []) 10 (fun _ => false)
        "m1" "r2" "a" "c" "hello").isOk = true) ∧
    (sendMessage 5 c7Db (TranslationQueue.mk []) 10 (fun _ => false)
      "m1" "r2" "a" "c" "hello").toOption.map
        (fun res => res.db.findDmRequest "a" "b") =
    some (some { id := "r2", userAId := "a", userBId := "b",
                 initiatedById := "a", status := .PENDING,
                 lastMessageAt := some 10, createdAt := 10 }) :=
  ⟨⟨by decide, by decide, by decide, by decide, by rfl, by decide, by decide,
     by decide, by decide, by decide⟩,
    first_message_creates_pending_request 5 c7Db (TranslationQueue.mk []) 10
      (fun _ => false) "m1" "r2" "a" "c" "hello" "b" "a" "b" dmChatAB
      ("a", "b") (by decide) (by decide) (by decide) (by decide) (by rfl)
      (by decide) (by decide) (by decide) (by decide) (by decide)⟩

/-! ### C3: translation fan-out -/

/-- Modelled from the spec (§4.3 steps 1-3): each member's `viewLanguage`
(default "en" for a member with no preference row), deduplicated in
enumeration order, capped to the first 10, with the sender's original
language removed. -/
def specTargetLanguages (db : DB) (chatId senderLang : String) : List String :=
  ((((chatMemberIds db chatId).map (fun uid =>
      match getLanguagePreference db uid chatId with
      | some p => p.viewLanguage
      | none => "en")).foldl insertDistinct []).take 10).filter
    (fun lang => lang ≠ senderLang)

/-- `getDefaultLanguagePreference` reads only `langPrefs`. -/
theorem getDefaultLanguagePreference_congr (db db' : DB) (u c : String)
    (h : db'.langPrefs = db.langPrefs) :
    getDefaultLanguagePreference db' u c = getDefaultLanguagePreference db u c := by
  unfold getDefaultLanguagePreference getLanguagePreference
  rw [h]

/-- `getAllMembersViewLanguages` reads only `chatMembers` and `langPrefs`. -/
theorem getAllMembersViewLanguages_congr (db db' : DB) (c : String)
    (h1 : db'.chatMembers = db.chatMembers) (h2 : db'.langPrefs = db.langPrefs) :
    getAllMembersViewLanguages db' c = getAllMembersViewLanguages db c := by
  unfold getAllMembersViewLanguages chatMemberIds getLanguagePreference
  rw [h1, h2]

/-- `findTranslation` reads only `translations`. -/
theorem findTranslation_congr (db db' : DB) (mid lang : String)
    (h : db'.translations = db.translations) :
    db'.findTranslation mid lang = db.findTranslation mid lang := by
  unfold DB.findTranslation
  rw [h]

/-- When every stored preference has a nonempty `viewLanguage` (as the
validation in `setLanguagePreference` guarantees), the code's member
language enumeration coincides with the spec's. -/
theorem getAllMembersViewLanguages_eq_spec (db : DB) (c : String)
    (hvalid : db.langPrefs.all (fun p => p.viewLanguage ≠ "") = true) :
    getAllMembersViewLanguages db c =
      ((chatMemberIds db c).map (fun uid =>
        match getLanguagePreference db uid c with
        | some p => p.viewLanguage
        | none => "en")).foldl insertDistinct [] := by
  unfold getAllMembersViewLanguages
  congr 1
  refine List.map_congr_left (fun uid _ => ?_)
  cases hp : getLanguagePreference db uid c with
  | none => rfl
  | some p =>
    have hmem : p ∈ db.langPrefs := List.mem_of_find?_eq_some hp
    have hne : p.viewLanguage ≠ "" := by
      rw [List.all_eq_true] at hvalid
      simpa using hvalid p hmem
    simp [hne]

/-- Jobs handed to the queue layer when no translation row exists for the
message: one per language, in order. -/
theorem dispatchTranslationJobs_attempted (mr : Nat)
    (f : TranslationJobData → Bool) (db : DB) (mid cid fl ct : String)
    (langs : List String) (q : TranslationQueue)
    (acc : List TranslationJobData) (errs : List String)
    (hnone : ∀ lang, db.findTranslation mid lang = none) :
    (dispatchTranslationJobs mr f db mid cid fl ct langs q acc errs).2.1 =
      acc ++ langs.map (fun lang =>
        { messageId := mid, chatId := cid, fromLang := fl, toLang := lang,
          originalContent := ct }) := by
  induction langs generalizing q acc errs with
  | nil => simp [dispatchTranslationJobs]
  | cons lang rest ih =>
    unfold dispatchTranslationJobs
    rw [hnone lang]
    cases hf : f { messageId := mid, chatId := cid, fromLang := fl, toLang := lang, originalContent := ct } with
    | true => simp [hf, ih]
    | false => simp [hf, ih]

/-- Core of C3, for an explicit successful result value. -/
theorem translation_fanout_core (maxRetries : Nat) (db : DB)
    (q : TranslationQueue) (now : Nat)
    (dispatchFails : TranslationJobData → Bool)
    (newMsgId newDmReqId userId chatId content origLang : String)
    (res : SendResult)
    (horig : (getDefaultLanguagePreference db userId chatId).1 = origLang)
    (hvalid : db.langPrefs.all (fun p => p.viewLanguage ≠ "") = true)
    (hfresh : ∀ lang, db.findTranslation newMsgId lang = none)
    (hres : sendMessage maxRetries db q now dispatchFails newMsgId newDmReqId
      userId chatId content = .ok res) :
    res.attemptedJobs.map (fun j => j.toLang) =
      specTargetLanguages db chatId origLang ∧
    res.attemptedJobs.length ≤ 10 ∧
    res.attemptedJobs.all (fun j =>
      j.toLang ≠ origLang ∧ j.fromLang = origLang ∧ j.messageId = newMsgId ∧
      j.chatId = chatId ∧ j.originalContent = strTrim content) = true := by
  obtain ⟨chat, db1, hchat, hgate, hassem, hdm⟩ :=
    sendMessage_ok_decompose maxRetries db q now dispatchFails newMsgId
      newDmReqId userId chatId content res hres
  obtain ⟨hB, hF, hC, hM, hMsg, hP, hT⟩ :=
    sendMessageDmGate_tables db now newDmReqId userId chat db1 hgate
  subst hassem
  unfold sendMessageAssemble
  simp only
  set msg : Message :=
    { id := newMsgId, chatId := chatId, senderId := userId, type := .TEXT,
      content := strTrim content, createdAt := now, editedAt := none,
      deletedAt := none } with hmsg
  set db2 : DB := { db1 with messages := db1.messages ++ [msg] } with hdb2
  have hP2 : db2.langPrefs = db.langPrefs := hP
  have hM2 : db2.chatMembers = db.chatMembers := hM
  have hT2 : db2.translations = db.translations := hT
  have horig2 : (getDefaultLanguagePreference db2 userId chatId).1 = origLang := by
    rw [getDefaultLanguagePreference_congr db db2 userId chatId hP2, horig]
  have htargets : getAllMembersViewLanguages db2 chatId =
      getAllMembersViewLanguages db chatId :=
    getAllMembersViewLanguages_congr db db2 chatId hM2 hP2
  have hfresh2 : ∀ lang, db2.findTranslation newMsgId lang = none := by
    intro lang
    rw [findTranslation_congr db db2 newMsgId lang hT2]
    exact hfresh lang
  have hlangs :
      (if (getAllMembersViewLanguages db2 chatId).length > 10 then
        (getAllMembersViewLanguages db2 chatId).take 10
      else getAllMembersViewLanguages db2 chatId) =
      (getAllMembersViewLanguages db chatId).take 10 := by
    rw [htargets]
    by_cases hlen : (getAllMembersViewLanguages db chatId).length > 10
    · simp [hlen]
    · simp only [hlen, if_false]
      exact (List.take_of_length_le (Nat.le_of_not_lt hlen)).symm
  have hdisp := dispatchTranslationJobs_attempted maxRetries dispatchFails db2
    newMsgId chatId ((getDefaultLanguagePreference db2 userId chatId).1)
    msg.content
    ((if (getAllMembersViewLanguages db2 chatId).length > 10 then
        (getAllMembersViewLanguages db2 chatId).take 10
      else getAllMembersViewLanguages db2 chatId).filter
      (fun targetLang => targetLang ≠ (getDefaultLanguagePreference db2 userId chatId).1))
    q [] [] hfresh2
  rw [hlangs, horig2] at hdisp
  simp only [horig2, hlangs]
  refine ⟨?_, ?_, ?_⟩
  · rw [hdisp]
    simp only [List.nil_append, List.map_map]
    rw [specTargetLanguages,
      ← getAllMembersViewLanguages_eq_spec db chatId hvalid]
    exact (List.map_congr_left (fun a _ => rfl)).trans (List.map_id _)
  · rw [hdisp]
    simp only [List.nil_append, List.length_map]
    exact le_trans (List.length_filter_le _ _) (List.length_take_le _ _)
  · rw [hdisp]
    simp only [List.nil_append, List.all_eq_true]
    intro j hj
    simp only [List.mem_map] at hj
    obtain ⟨lang, hlang, rfl⟩ := hj
    rw [List.mem_filter] at hlang
    simp only [decide_eq_true_eq] at hlang
    simp [hlang.2]

/-- C3: on a successful send of a fresh message (no pre-existing
translation rows for its id, and no stored empty-string preference), the
dispatched target languages are exactly the spec's: distinct member view
languages in enumeration order, capped to the first 10, minus the sender's
original language; hence at most 10 jobs, none with `toLang` equal to the
sender's language, and every job carries the sender's language as
`fromLang` for this message. -/
theorem translation_fanout_capped (maxRetries : Nat) (db : DB)
    (q : TranslationQueue) (now : Nat)
    (dispatchFails : TranslationJobData → Bool)
    (newMsgId newDmReqId userId chatId content origLang : String)
    (horig : (getDefaultLanguagePreference db userId chatId).1 = origLang)
    (hvalid : db.langPrefs.all (fun p => p.viewLanguage ≠ "") = true)
    (hfresh : db.translations.all (fun t => t.messageId ≠ newMsgId) = true)
    (hok : (sendMessage maxRetries db q now dispatchFails newMsgId newDmReqId
      userId chatId content).isOk = true) :
    (sendMessage maxRetries db q now dispatchFails newMsgId newDmReqId
      userId chatId content).toOption.map
        (fun res => res.attemptedJobs.map (fun j => j.toLang)) =
      some (specTargetLanguages db chatId origLang) ∧
    (sendMessage maxRetries db q now dispatchFails newMsgId newDmReqId
      userId chatId content).toOption.map
        (fun res => decide (res.attemptedJobs.length ≤ 10)) = some true ∧
    (sendMessage maxRetries db q now dispatchFails newMsgId newDmReqId
      userId chatId content).toOption.map
        (fun res => res.attemptedJobs.all (fun j =>
          j.toLang ≠ origLang ∧ j.fromLang = origLang ∧
          j.messageId = newMsgId ∧ j.chatId = chatId ∧
          j.originalContent = strTrim content)) = some true := by
  cases hres : sendMessage maxRetries db q now dispatchFails newMsgId
      newDmReqId userId chatId content with
  | error e => rw [hres] at hok; simp [Except.isOk, Except.toBool] at hok
  | ok res =>
    have hfreshAll : ∀ lang, db.findTranslation newMsgId lang = none := by
      intro lang
      unfold DB.findTranslation
      rw [List.find?_eq_none]
      intro t ht
      rw [List.all_eq_true] at hfresh
      have hne := hfresh t ht
      simp only [decide_eq_true_eq] at hne
      simp only [Bool.and_eq_true, decide_eq_true_eq, not_and]
      intro h1
      exact absurd h1 hne
    obtain ⟨h1, h2, h3⟩ := translation_fanout_core maxRetries db q now
      dispatchFails newMsgId newDmReqId userId chatId content origLang res
      horig hvalid hfreshAll hres
    refine ⟨by simp [Except.toOption, h1], by simp [Except.toOption, h2], ?_⟩
    simp only [Except.toOption, Option.map_some']
    rw [Option.some_inj]
    exact h3

/-- Group chat used by the C3 witness. -/
def groupChatC : Chat := { id := "c", type := .GROUP, dmChat := none, updatedAt := 0 }

/-- Preference rows for the C3 witness: a writes ka, b reads es, d reads en. -/
def c3PrefA : ChatLanguagePreference :=
  { chatId := "c", userId := "a", myLanguage := "ka", viewLanguage := "ka" }

/-- Preference row of member b for the C3 witness. -/
def c3PrefB : ChatLanguagePreference :=
  { chatId := "c", userId := "b", myLanguage := "en", viewLanguage := "es" }

/-- C3 witness store: a three-member group chat. -/
def c3Db : DB :=
  DB.mk [] [] [] [groupChatC] [("c", "a"), ("c", "b"), ("c", "d")] []
    [c3PrefA, c3PrefB] []

/-- Witness for C3: sender language ka, other members read es and en — the
dispatched jobs are exactly es and en, never ka. -/
theorem translation_fanout_capped_witness :
    ((getDefaultLanguagePreference c3Db "a" "c").1 = "ka" ∧
      c3Db.langPrefs.all (fun p => p.viewLanguage ≠ "") = true ∧
      c3Db.translations.all (fun t => t.messageId ≠ "m1") = true ∧
      (sendMessage 5 c3Db (TranslationQueue.mk []) 10 (fun _ => false)
        "m1" "r2" "a" "c" "hola").isOk = true ∧
      specTargetLanguages c3Db "c" "ka" = ["es", "en"]) ∧
    ((sendMessage 5 c3Db (TranslationQueue.mk []) 10 (fun _ => false)
      "m1" "r2" "a" "c" "hola").toOption.map
        (fun res => res.attemptedJobs.map (fun j => j.toLang)) =
      some (specTargetLanguages c3Db "c" "ka") ∧
    (sendMessage 5 c3Db (TranslationQueue.mk []) 10 (fun _ => false)
      "m1" "r2" "a" "c" "hola").toOption.map
        (fun res => decide (res.attemptedJobs.length ≤ 10)) = some true ∧
    (sendMessage 5 c3Db (TranslationQueue.mk []) 10 (fun _ => false)
      "m1" "r2" "a" "c" "hola").toOption.map
        (fun res => res.attemptedJobs.all (fun j =>
          j.toLang ≠ "ka" ∧ j.fromLang = "ka" ∧
          j.messageId = "m1" ∧ j.chatId = "c" ∧
          j.originalContent = strTrim "hola")) = some true) :=
  ⟨⟨by decide, by decide, by decide, by decide, by decide⟩,
    translation_fanout_capped 5 c3Db (TranslationQueue.mk []) 10
      (fun _ => false) "m1" "r2" "a" "c" "hola" "ka" (by decide) (by decide)
      (by decide) (by decide)⟩

/-! ### C9: sending and dispatching are decoupled failure domains -/

/-- The list of jobs handed to the queue layer does not depend on which
enqueue operations fail (failures are caught, logged and skipped). -/
theorem dispatchTranslationJobs_oracle_attempted (mr : Nat)
    (f g : TranslationJobData → Bool) (db : DB) (mid cid fl ct : String)
    (langs : List String) (q q' : TranslationQueue)
    (acc : List TranslationJobData) (errs errs' : List String) :
    (dispatchTranslationJobs mr f db mid cid fl ct langs q acc errs).2.1 =
    (dispatchTranslationJobs mr g db mid cid fl ct langs q' acc errs').2.1 := by
  induction langs generalizing q q' acc errs errs' with
  | nil => simp [dispatchTranslationJobs]
  | cons lang rest ih =>
    unfold dispatchTranslationJobs
    by_cases hE : (db.findTranslation mid lang).isSome = true
    · simp only [hE, if_true]
      exact ih _ _ _ _ _
    · simp only [hE, if_false]
      cases hf : f { messageId := mid, chatId := cid, fromLang := fl, toLang := lang, originalContent := ct } <;>
        cases hg : g { messageId := mid, chatId := cid, fromLang := fl, toLang := lang, originalContent := ct } <;>
        simp only [hf, hg, Bool.false_eq_true, if_false, if_true] <;>
        exact ih _ _ _ _ _

/-- The store, the sender-facing DTO and the handed-over job list of
`sendMessage` are the same under any two dispatch-failure behaviours. -/
theorem sendMessage_oracle_indep (mr : Nat) (db : DB) (q : TranslationQueue)
    (now : Nat) (f g : TranslationJobData → Bool)
    (mid rid u c content : String) :
    (sendMessage mr db q now f mid rid u c content).map
        (fun r => (r.db, r.dto, r.attemptedJobs)) =
      (sendMessage mr db q now g mid rid u c content).map
        (fun r => (r.db, r.dto, r.attemptedJobs)) := by
  unfold sendMessage
  simp only [bind, Except.bind, pure, Except.pure, throw, throwThe,
    MonadExceptOf.throw]
  repeat' split
  all_goals first
    | rfl
    | (simp only [Except.map, sendMessageAssemble]
       simp only [Prod.mk.injEq, Except.ok.injEq]
       refine ⟨trivial, trivial, ?_⟩
       apply dispatchTranslationJobs_oracle_attempted)

/-- A successful `sendMessage` has persisted the trimmed message under the
new id with the sender as author. -/
theorem sendMessage_persists_message (mr : Nat) (db : DB)
    (q : TranslationQueue) (now : Nat) (f : TranslationJobData → Bool)
    (mid rid u c content : String) :
    ((sendMessage mr db q now f mid rid u c content).toOption.map
        (fun r => r.db.messages.any (fun m =>
          m.id == mid && m.senderId == u && m.content == strTrim content))).getD
      true = true := by
  cases hres : sendMessage mr db q now f mid rid u c content with
  | error e => rfl
  | ok res =>
    obtain ⟨chat, db1, hchat, hgate, hassem, hdm⟩ :=
      sendMessage_ok_decompose mr db q now f mid rid u c content res hres
    subst hassem
    simp [Except.toOption, sendMessageAssemble, List.any_append]

/-- C9: the outcome of `sendMessage` — success or failure, the stored
message, the DTO returned to the sender, and even which jobs were handed to
the queue — is identical whether every dispatch fails or none does:
dispatch errors are caught and logged, never propagated; and a successful
send has persisted the message. -/
theorem send_decoupled_from_dispatch (mr : Nat) (db : DB)
    (q : TranslationQueue) (now : Nat) (f g : TranslationJobData → Bool)
    (mid rid u c content : String) :
    ((sendMessage mr db q now f mid rid u c content).map
        (fun r => (r.db, r.dto, r.attemptedJobs)) =
      (sendMessage mr db q now g mid rid u c content).map
        (fun r => (r.db, r.dto, r.attemptedJobs))) ∧
    ((sendMessage mr db q now f mid rid u c content).isOk =
      (sendMessage mr db q now g mid rid u c content).isOk) ∧
    (((sendMessage mr db q now f mid rid u c content).toOption.map
        (fun r => r.db.messages.any (fun m =>
          m.id == mid && m.senderId == u && m.content == strTrim content))).getD
      true = true) := by
  have hmain := sendMessage_oracle_indep mr db q now f g mid rid u c content
  refine ⟨hmain, ?_, sendMessage_persists_message mr db q now f mid rid u c content⟩
  cases hf : sendMessage mr db q now f mid rid u c content with
  | error e =>
    cases hg : sendMessage mr db q now g mid rid u c content with
    | error e2 => rfl
    | ok r2 => rw [hf, hg] at hmain; exact Except.noConfusion hmain
  | ok r =>
    cases hg : sendMessage mr db q now g mid rid u c content with
    | error e2 => rw [hf, hg] at hmain; exact Except.noConfusion hmain
    | ok r2 => rfl

/-! ### C4: worker failure semantics -/

/-- If one processor execution throws and leaves the store unchanged, the
queue's retry loop re-executes it until the configured attempts are
exhausted, waiting `base * 2^k` before the (k+1)-th re-execution. -/
theorem runJobWithRetries_stuck
    (translate : String → String → String → Except String String)
    (tid : String) (d : TranslationJobData) (base : Nat) (db : DB) (e : String)
    (hstep : processTranslationJob db translate tid d = (db, .thrownError e)) :
    ∀ n made, 1 ≤ n →
      runJobWithRetries translate tid d base db made n =
        { db := db, finalOutcome := .thrownError e, attemptsMade := made + n,
          backoffDelays :=
            (List.range (n - 1)).map (fun k => base * 2 ^ (made + k)) } := by
  intro n
  induction n with
  | zero => intro made h; exact absurd h (by omega)
  | succ m ih =>
    intro made h1
    unfold runJobWithRetries
    rw [hstep]
    simp only
    by_cases hm : m = 0
    · subst hm
      simp
    · have hm1 : m = (m - 1) + 1 := by omega
      simp only [hm, if_false]
      rw [ih (made + 1) (by omega)]
      have hdel : (List.range (m + 1 - 1)).map (fun k => base * 2 ^ (made + k)) =
          base * 2 ^ made ::
            (List.range (m - 1)).map (fun k => base * 2 ^ (made + 1 + k)) := by
        simp only [Nat.add_sub_cancel]
        conv_lhs => rw [hm1]
        rw [List.range_succ_eq_map, List.map_cons, List.map_map]
        simp only [Nat.add_zero]
        congr 1
        refine List.map_congr_left (fun k _ => ?_)
        have hexp : made + Nat.succ k = made + 1 + k := by omega
        simp [Function.comp, hexp]
      simp only [JobRunResult.mk.injEq]
      exact ⟨trivial, trivial, by omega, hdel.symm⟩

/-- C4 (amended): the worker treats a missing or soft-deleted message
exactly like a transient provider failure — the processor throws a plain
error (never an unrecoverable one), so the queue retries it with
exponential backoff until the configured attempts are exhausted, after
which the job is abandoned with a thrown-error outcome. -/
theorem worker_retries_missing_message_like_transient
    (translate : String → String → String → Except String String)
    (tid : String) (d : TranslationJobData) (base : Nat)
    (db dbT : DB) (mT : Message) (e : String) (n : Nat)
    (hn : 1 ≤ n)
    (hmiss : db.findMessage d.messageId = none)
    (hT1 : dbT.findMessage d.messageId = some mT)
    (hT2 : mT.deletedAt = none)
    (hT3 : dbT.findTranslation d.messageId d.toLang = none)
    (htr : translate d.originalContent d.fromLang d.toLang = .error e) :
    runJobWithRetries translate tid d base db 0 n =
      { db := db,
        finalOutcome :=
          .thrownError ("Message " ++ d.messageId ++ " not found or deleted"),
        attemptsMade := n,
        backoffDelays := (List.range (n - 1)).map (fun k => base * 2 ^ k) } ∧
    runJobWithRetries translate tid d base dbT 0 n =
      { db := dbT, finalOutcome := .thrownError e, attemptsMade := n,
        backoffDelays := (List.range (n - 1)).map (fun k => base * 2 ^ k) } := by
  constructor
  · have hstep : processTranslationJob db translate tid d =
        (db, .thrownError ("Message " ++ d.messageId ++ " not found or deleted")) := by
      unfold processTranslationJob
      rw [hmiss]
    have hrun := runJobWithRetries_stuck translate tid d base db _ hstep n 0 hn
    simpa using hrun
  · have hstep : processTranslationJob dbT translate tid d =
        (dbT, .thrownError e) := by
      unfold processTranslationJob
      rw [hT1]
      simp [hT2, hT3, htr]
    have hrun := runJobWithRetries_stuck translate tid d base dbT e hstep n 0 hn
    simpa using hrun

/-- Job payload used by the C4/C5 fixtures. -/
def c4Data : TranslationJobData :=
  { messageId := "m1", chatId := "c", fromLang := "en", toLang := "es",
    originalContent := "hi" }

/-- The queued form of `c4Data` under the default retry options. -/
def c4QJob : QueuedJob :=
  { jobId := "translation:m1:es", data := c4Data, attempts := 5,
    backoffDelay := 2000 }

/-- An entirely empty store. -/
def emptyDb : DB := DB.mk [] [] [] [] [] [] [] []

/-- A provider that always succeeds (identity translation). -/
def okProvider : String → String → String → Except String String :=
  fun text _ _ => .ok text

/-- A provider that always fails transiently. -/
def failProvider : String → String → String → Except String String :=
  fun _ _ _ => .error "provider unavailable"

/-- The message row backing `c4Data` for the transient-failure fixture. -/
def c4Msg : Message :=
  { id := "m1", chatId := "c", senderId := "a", type := .TEXT,
    content := "hi", createdAt := 0, editedAt := none, deletedAt := none }

/-- Store holding the (live) message `m1`. -/
def c4MsgDb : DB := DB.mk [] [] [] [] [] [c4Msg] [] []

/-- Counterexample to C4 as frozen: the job of a missing message is NOT
failed permanently — even with a perfectly working provider it is executed
5 times (the configured maximum), with exponential backoff waits between
executions, before being abandoned. -/
theorem missing_message_job_is_retried :
    (addTranslationJob 5 (TranslationQueue.mk []) c4Data).jobs = [c4QJob] ∧
    emptyDb.findMessage "m1" = none ∧
    (runQueuedJob okProvider "t1" c4QJob emptyDb).attemptsMade = 5 ∧
    (runQueuedJob okProvider "t1" c4QJob emptyDb).backoffDelays =
      [2000, 4000, 8000, 16000] ∧
    (runQueuedJob okProvider "t1" c4QJob emptyDb).finalOutcome =
      .thrownError "Message m1 not found or deleted" :=
  ⟨by decide, by decide, by decide, by decide, by decide⟩

/-- Witness for the amended C4 at concrete stores and provider. -/
theorem worker_retries_missing_message_like_transient_witness :
    (1 ≤ 5 ∧ emptyDb.findMessage c4Data.messageId = none ∧
      c4MsgDb.findMessage c4Data.messageId = some c4Msg ∧
      c4Msg.deletedAt = none ∧
      c4MsgDb.findTranslation c4Data.messageId c4Data.toLang = none ∧
      failProvider c4Data.originalContent c4Data.fromLang c4Data.toLang =
        .error "provider unavailable") ∧
    (runJobWithRetries failProvider "t1" c4Data 2000 emptyDb 0 5 =
      { db := emptyDb,
        finalOutcome :=
          .thrownError ("Message " ++ c4Data.messageId ++ " not found or deleted"),
        attemptsMade := 5,
        backoffDelays := (List.range (5 - 1)).map (fun k => 2000 * 2 ^ k) } ∧
    runJobWithRetries failProvider "t1" c4Data 2000 c4MsgDb 0 5 =
      { db := c4MsgDb, finalOutcome := .thrownError "provider unavailable",
        attemptsMade := 5,
        backoffDelays := (List.range (5 - 1)).map (fun k => 2000 * 2 ^ k) }) :=
  ⟨⟨by decide, by decide, by decide, by decide, by decide, by rfl⟩,
    worker_retries_missing_message_like_transient failProvider "t1" c4Data
      2000 emptyDb c4MsgDb c4Msg "provider unavailable" 5 (by decide)
      (by decide) (by decide) (by decide) (by decide) (by rfl)⟩

/-! ### C5: per-key idempotency of dispatch -/

/-- Number of MessageTranslation rows stored for a (messageId, lang) key. -/
def translationCount (db : DB) (mid lang : String) : Nat :=
  (db.translations.filter (fun t => t.messageId = mid && t.lang = lang)).length

/-- C5: the deterministic job id deduplicates at the queue layer — a second
submission for the same (messageId, lang) key is absorbed and the queue holds
exactly one job for that id — and the worker layer keeps at most one row
for the key: a completed first run leaves exactly one MessageTranslation row
and a second run for the same key is a skip (success-no-op). -/
theorem dispatch_idempotent_per_key (maxRetries : Nat) (q : TranslationQueue)
    (d d' : TranslationJobData) (db : DB)
    (translate : String → String → String → Except String String)
    (tid1 tid2 : String)
    (hkey1 : d'.messageId = d.messageId) (hkey2 : d'.toLang = d.toLang)
    (hqnone : q.jobs.all
      (fun j => j.jobId ≠ translationJobId d.messageId d.toLang) = true)
    (hzero : db.findTranslation d.messageId d.toLang = none) :
    addTranslationJob maxRetries (addTranslationJob maxRetries q d) d' =
      addTranslationJob maxRetries q d ∧
    ((addTranslationJob maxRetries q d).jobs.filter
        (fun j => j.jobId = translationJobId d.messageId d.toLang)).length = 1 ∧
    ((processTranslationJob db translate tid1 d).2 = .completed tid1 →
      translationCount (processTranslationJob db translate tid1 d).1
          d.messageId d.toLang = 1 ∧
      processTranslationJob (processTranslationJob db translate tid1 d).1
          translate tid2 d =
        ((processTranslationJob db translate tid1 d).1,
          .skippedExisting tid1)) := by
  have hfilter0 : q.jobs.filter
      (fun j => j.jobId = translationJobId d.messageId d.toLang) = [] := by
    rw [List.filter_eq_nil_iff]
    intro j hj
    rw [List.all_eq_true] at hqnone
    have := hqnone j hj
    simpa using this
  have hany0 : q.jobs.any
      (fun j => j.jobId = translationJobId d.messageId d.toLang) = false := by
    rw [Bool.eq_false_iff]
    intro hc
    rw [List.any_eq_true] at hc
    obtain ⟨j, hj, hjid⟩ := hc
    rw [List.all_eq_true] at hqnone
    have := hqnone j hj
    simp at this hjid
    exact this hjid
  have hjid' : translationJobId d'.messageId d'.toLang =
      translationJobId d.messageId d.toLang := by
    rw [hkey1, hkey2]
  refine ⟨?_, ?_, ?_⟩
  · unfold addTranslationJob
    simp only [hjid', hany0, Bool.false_eq_true, if_false]
    rw [if_pos]
    rw [List.any_append]
    simp [List.any_cons]
  · unfold addTranslationJob
    simp only [hany0, Bool.false_eq_true, if_false]
    rw [List.filter_append, hfilter0]
    simp [List.filter_cons]
  · intro hcomp
    cases hmsg : db.findMessage d.messageId with
    | none =>
      have hproc : processTranslationJob db translate tid1 d =
          (db, .thrownError ("Message " ++ d.messageId ++ " not found or deleted")) := by
        unfold processTranslationJob
        simp only [hmsg]
      rw [hproc] at hcomp
      exact absurd hcomp (by simp)
    | some message =>
      by_cases hdel : message.deletedAt.isSome = true
      · have hproc : processTranslationJob db translate tid1 d =
            (db, .thrownError ("Message " ++ d.messageId ++ " not found or deleted")) := by
          unfold processTranslationJob
          simp only [hmsg]
          rw [if_pos hdel]
        rw [hproc] at hcomp
        exact absurd hcomp (by simp)
      · cases htr : translate d.originalContent d.fromLang d.toLang with
        | error e =>
          have hproc : processTranslationJob db translate tid1 d =
              (db, .thrownError e) := by
            unfold processTranslationJob
            simp only [hmsg]
            rw [if_neg hdel]
            simp only [hzero, htr]
          rw [hproc] at hcomp
          exact absurd hcomp (by simp)
        | ok translated =>
          have hproc : processTranslationJob db translate tid1 d =
              ({ db with translations := db.translations ++
                  [{ id := tid1, messageId := d.messageId, lang := d.toLang, content := translated, provider := "openai" }] },
                .completed tid1) := by
            unfold processTranslationJob
            simp only [hmsg]
            rw [if_neg hdel]
            simp only [hzero, htr]
          rw [hproc]
          have hnil : db.translations.filter
              (fun t => t.messageId = d.messageId && t.lang = d.toLang) = [] := by
            rw [List.filter_eq_nil_iff]
            intro t ht
            have hnone := List.find?_eq_none.mp hzero t ht
            simpa using hnone
          constructor
          · unfold translationCount
            simp only [List.filter_append, hnil]
            simp [List.filter_cons]
          · have hmsg2 : ({ db with translations := db.translations ++
                [{ id := tid1, messageId := d.messageId, lang := d.toLang, content := translated, provider := "openai" }] } : DB).findMessage
                  d.messageId = some message := hmsg
            have hfind : ({ db with translations := db.translations ++
                [{ id := tid1, messageId := d.messageId, lang := d.toLang, content := translated, provider := "openai" }] } : DB).findTranslation
                  d.messageId d.toLang =
                some { id := tid1, messageId := d.messageId, lang := d.toLang, content := translated, provider := "openai" } := by
              unfold DB.findTranslation at hzero ⊢
              simp only [List.find?_append, hzero]
              simp [List.find?_cons]
            unfold processTranslationJob
            simp only [hmsg2]
            rw [if_neg hdel]
            simp only [hfind]

/-- Witness for C5: the same (m1, es) job submitted twice over an empty
queue, then executed twice against the store holding message m1. -/
theorem dispatch_idempotent_per_key_witness :
    (c4Data.messageId = c4Data.messageId ∧ c4Data.toLang = c4Data.toLang ∧
      (TranslationQueue.mk []).jobs.all
        (fun j => j.jobId ≠ translationJobId c4Data.messageId c4Data.toLang) = true ∧
      c4MsgDb.findTranslation c4Data.messageId c4Data.toLang = none) ∧
    (addTranslationJob 5 (addTranslationJob 5 (TranslationQueue.mk []) c4Data)
        c4Data = addTranslationJob 5 (TranslationQueue.mk []) c4Data ∧
    ((addTranslationJob 5 (TranslationQueue.mk []) c4Data).jobs.filter
        (fun j => j.jobId = translationJobId c4Data.messageId c4Data.toLang)).length = 1 ∧
    ((processTranslationJob c4MsgDb okProvider "t1" c4Data).2 = .completed "t1" →
      translationCount (processTranslationJob c4MsgDb okProvider "t1" c4Data).1
          c4Data.messageId c4Data.toLang = 1 ∧
      processTranslationJob (processTranslationJob c4MsgDb okProvider "t1" c4Data).1
          okProvider "t2" c4Data =
        ((processTranslationJob c4MsgDb okProvider "t1" c4Data).1,
          .skippedExisting "t1"))) :=
  ⟨⟨rfl, rfl, by decide, by decide⟩,
    dispatch_idempotent_per_key 5 (TranslationQueue.mk []) c4Data c4Data
      c4MsgDb okProvider "t1" "t2" rfl rfl (by decide) (by decide)⟩

/-! ### C6: the three-case localization contract -/

/-- Messages of a `getMessages` result (empty on error). -/
def pageMessages (e : Except AppError MessagesPage) : List MessageDTO :=
  match e with
  | .ok page => page.messages
  | .error _ => []

/-- Modelled from the spec (§4.5): the three-case localization contract for
one DTO, checked against the store.  If the reader's view language equals
the sender's language, the DTO shows the original with `contentOriginal`
omitted; else, with a stored translation, the translated text with the
original attached and `langShown` the view language; else the original as
fallback with `contentOriginal` omitted and `langShown = langOriginal`. -/
def localizedOk (db : DB) (chatId requesterViewLang : String)
    (dto : MessageDTO) : Bool :=
  match db.findMessage dto.id with
  | none => false
  | some msg =>
    let langOriginal := (getDefaultLanguagePreference db msg.senderId chatId).1
    if requesterViewLang = langOriginal then
      dto.content == msg.content && dto.contentOriginal == none &&
      dto.langOriginal == langOriginal && dto.langShown == langOriginal
    else
      match db.findTranslation msg.id requesterViewLang with
      | some t =>
        dto.content == t.content && dto.contentOriginal == some msg.content &&
        dto.langOriginal == langOriginal && dto.langShown == requesterViewLang
      | none =>
        dto.content == msg.content && dto.contentOriginal == none &&
        dto.langOriginal == langOriginal && dto.langShown == langOriginal

/-- Membership is preserved by ordered insertion. -/
theorem mem_insertByCreatedAt {m x : Message} {l : List Message} :
    x ∈ insertByCreatedAt m l ↔ x = m ∨ x ∈ l := by
  induction l with
  | nil => simp [insertByCreatedAt]
  | cons a l ih =>
    unfold insertByCreatedAt
    by_cases hle : m.createdAt ≤ a.createdAt
    · simp [hle]
    · simp [hle, ih]
      tauto

/-- Sorting by `createdAt` preserves membership. -/
theorem mem_sortByCreatedAt {x : Message} {l : List Message} :
    x ∈ sortByCreatedAt l ↔ x ∈ l := by
  induction l with
  | nil => simp [sortByCreatedAt]
  | cons a l ih => simp [sortByCreatedAt, mem_insertByCreatedAt, ih]

/-- With pairwise-distinct ids, `find?` by a member's id returns that
member. -/
theorem find?_id_unique (l : List Message) (m : Message) (hmem : m ∈ l)
    (hnd : (l.map (fun x => x.id)).Nodup) :
    l.find? (fun x => x.id = m.id) = some m := by
  induction l with
  | nil => cases hmem
  | cons a l ih =>
    rw [List.map_cons, List.nodup_cons] at hnd
    cases hmem with
    | head => simp [List.find?_cons]
    | tail _ hm =>
      have hne : ¬(a.id = m.id) := by
        intro hEq
        exact hnd.1 (hEq ▸ List.mem_map_of_mem (fun x => x.id) hm)
      rw [List.find?_cons, decide_eq_false hne]
      exact ih hm hnd.2

/-- The DTO produced by `localizeMessage` for a stored message satisfies
the three-case contract. -/
theorem localizeMessage_ok (db : DB) (chatId vlang : String) (msg : Message)
    (hfind : db.findMessage msg.id = some msg) :
    localizedOk db chatId vlang (localizeMessage db chatId vlang msg) = true := by
  unfold localizedOk localizeMessage
  by_cases hc : vlang = (getDefaultLanguagePreference db msg.senderId chatId).1
  · simp [hc, hfind]
  · cases ht : db.findTranslation msg.id vlang with
    | some t => simp [hc, hfind, ht]
    | none => simp [hc, hfind, ht]

/-- A member of the look-ahead page selection is a member of the underlying
list. -/
theorem mem_page_select {l : List Message} {limit : Nat} {msg : Message}
    (h : msg ∈ (if limit < (l.take (limit + 1)).length then
        (l.take (limit + 1)).take limit else l.take (limit + 1))) :
    msg ∈ l := by
  by_cases hmore : limit < (l.take (limit + 1)).length
  · rw [if_pos hmore] at h
    exact List.mem_of_mem_take (List.mem_of_mem_take h)
  · rw [if_neg hmore] at h
    exact List.mem_of_mem_take h

/-- C6: every DTO in any page returned by `getMessages` (for any reader,
cursor and limit, over a store whose message ids are pairwise distinct)
satisfies the three-case localization contract with respect to the reader's
view language — original text when the languages coincide, stored
translation with `contentOriginal` when one exists, and fallback to the
original (no error) otherwise, independently per message. -/
theorem getMessages_localization_contract (db : DB) (userId chatId : String)
    (cursor : Option String) (limit : Nat) (dto : MessageDTO)
    (hnodup : (db.messages.map (fun m => m.id)).Nodup)
    (hmem : dto ∈ pageMessages (getMessages db userId chatId cursor limit)) :
    localizedOk db chatId
      ((getDefaultLanguagePreference db userId chatId).2) dto = true := by
  cases hres : getMessages db userId chatId cursor limit with
  | error e => rw [hres] at hmem; simp [pageMessages] at hmem
  | ok page =>
    rw [hres] at hmem
    simp only [pageMessages] at hmem
    unfold getMessages at hres
    simp only [bind, Except.bind, pure, Except.pure, throw, throwThe,
      MonadExceptOf.throw] at hres
    split at hres
    · exact Except.noConfusion hres
    · rw [Except.ok.injEq] at hres
      subst hres
      rw [List.mem_map] at hmem
      obtain ⟨msg, hmsgmem, rfl⟩ := hmem
      have hsorted := mem_page_select hmsgmem
      rw [mem_sortByCreatedAt] at hsorted
      have hmemdb : msg ∈ db.messages := (List.mem_filter.mp hsorted).1
      exact localizeMessage_ok db chatId _ msg
        (find?_id_unique db.messages msg hmemdb hnodup)

/-- Message stored for the C6 witness (sender a writes Georgian). -/
def c6Msg : Message :=
  { id := "m1", chatId := "c", senderId := "a", type := .TEXT,
    content := "გამარჯობა", createdAt := 1, editedAt := none,
    deletedAt := none }

/-- Stored Spanish translation of `c6Msg` (mock provider reverses). -/
def c6Tr : MessageTranslation :=
  { id := "t1", messageId := "m1", lang := "es", content := "აბოჯრამაგ",
    provider := "mock" }

/-- Sender a's preference row (writes and reads ka). -/
def c6PrefA : ChatLanguagePreference :=
  { chatId := "c", userId := "a", myLanguage := "ka", viewLanguage := "ka" }

/-- Reader b's preference row (reads es). -/
def c6PrefB : ChatLanguagePreference :=
  { chatId := "c", userId := "b", myLanguage := "en", viewLanguage := "es" }

/-- C6 witness store. -/
def c6Db : DB :=
  DB.mk [] [] [] [dmChatAB] [("c", "a"), ("c", "b")] [c6Msg]
    [c6PrefA, c6PrefB] [c6Tr]

/-- The localized DTO reader b receives for `c6Msg`. -/
def c6Dto : MessageDTO :=
  { id := "m1", chatId := "c", senderId := "a", type := .TEXT,
    content := "აბოჯრამაგ", contentOriginal := some "გამარჯობა",
    langOriginal := "ka", langShown := "es", createdAt := 1,
    editedAt := none, deletedAt := none }

/-- Witness for C6: reader b (viewLanguage es) reads the Georgian message
through its stored translation. -/
theorem getMessages_localization_contract_witness :
    ((c6Db.messages.map (fun m => m.id)).Nodup ∧
      c6Dto ∈ pageMessages (getMessages c6Db "b" "c" none 30)) ∧
    localizedOk c6Db "c" ((getDefaultLanguagePreference c6Db "b" "c").2)
      c6Dto = true :=
  ⟨⟨by decide, by decide⟩,
    getMessages_localization_contract c6Db "b" "c" none 30 c6Dto
      (by decide) (by decide)⟩

end ChatApp
